import Mathlib

/-!
# psxact R3051 core: decode / execute engine

A shallow embedding of `src/src/cpu/cpu_code.cpp`.  Machine words are natural
numbers; every C++ `uint32_t` expression that can leave the 32-bit range is
reduced modulo `2 ^ 32` at the place where the C++ expression wraps, and every
`int32_t(...)` cast is the two's-complement reading `toInt32`.

The handlers are member functions of `psxact::cpu::core`; here they are
functions from a `core` state to a `core` state.  The bus, COP0 exception
entry and the instruction-field decoders are declared in headers that are not
part of the sources, so they are modelled from the specification and marked as
such.
-/

namespace Psxact

/-! ## Data model -/

/-- Modelled from the spec: the cause codes `cop0::exception_code_t`.  The
enumeration is declared in `cpu_cop0.hpp`, which is not among the sources; the
constructors are the closed list of section 3. -/
inductive exception_code_t where
  | interrupt
  | address_error_load
  | address_error_store
  | bus_error_instruction
  | bus_error_data
  | syscall
  | breakpoint
  | reserved_instruction
  | cop_unusable
  | overflow
  deriving DecidableEq, Repr

/-- Access widths of the bus (`bus_width_t`, cf. `bus_size_t` in `bus_t.hpp`). -/
inductive bus_width_t where
  | BUS_WIDTH_BYTE
  | BUS_WIDTH_HALF
  | BUS_WIDTH_WORD
  deriving DecidableEq, Repr

/-- One call made on the bus by a handler, kept in the order of issue. -/
inductive bus_access where
  | read (width : bus_width_t) (address : Nat)
  | write (width : bus_width_t) (address : Nat) (data : Nat)
  deriving DecidableEq, Repr

/-- The register block `regs`: `gp[32]`, `lo`, `hi`, `pc`, `next_pc`. -/
structure regs_t where
  gp : Nat → Nat
  lo : Nat
  hi : Nat
  pc : Nat
  next_pc : Nat

/-- State of `psxact::cpu::core` as far as the handlers touch it, together with
the state `bus` of the bus collaborator and two observation logs: the bus
calls issued (`accesses`) and the causes handed to `enter_exception`
(`raised`). -/
structure core (β : Type) where
  regs : regs_t
  code : Nat
  is_branch : Bool
  is_load : Bool
  is_load_delay_slot : Bool
  load_index : Nat
  load_value : Nat
  bus : β
  accesses : List bus_access
  raised : List exception_code_t

/-- Modelled from the spec: the external collaborators of the core.  The bus
(`read_data`, `write_data`, section 6) and the COP0 exception entry are out of
scope of the sources; `read_data` may change the bus state (device registers),
and `exception_vector` is the opaque redirection of the pair `(pc, next_pc)`
that the exception collaborator supplies. -/
structure collaborators (β : Type) where
  read_data : β → bus_width_t → Nat → Nat × β
  write_data : β → bus_width_t → Nat → Nat → β
  exception_vector : exception_code_t → Nat × Nat → Nat × Nat

variable {β : Type}

/-! ## Machine arithmetic -/

/-- The cast `int32_t(x)` of a `uint32_t`: two's-complement reading. -/
def toInt32 (x : Nat) : Int :=
  if x % 2 ^ 32 < 2 ^ 31 then ((x % 2 ^ 32 : Nat) : Int) else ((x % 2 ^ 32 : Nat) : Int) - 2 ^ 32

/-- The cast `uint32_t(i)` of a signed value: reduction modulo `2 ^ 32`. -/
def toUInt32 (i : Int) : Nat :=
  (i % 2 ^ 32).toNat

/-- The 64-bit two's-complement reading of a natural number. -/
def toInt64 (x : Nat) : Int :=
  if x % 2 ^ 64 < 2 ^ 63 then ((x % 2 ^ 64 : Nat) : Int) else ((x % 2 ^ 64 : Nat) : Int) - 2 ^ 64

/-- The operator `~` on a `uint32_t`. -/
def not32 (x : Nat) : Nat :=
  (x ^^^ 0xffffffff) % 2 ^ 32

/-- Source: `overflow(x, y, z)`, `(~(x ^ y) & (x ^ z) & 0x80000000)`. -/
def overflow (x y z : Nat) : Nat :=
  not32 (x ^^^ y) &&& (x ^^^ z) &&& 0x80000000

/-! ## Instruction decoder -/

/-- Modelled from the spec: field `rs`, bits 25..21 (section 4.1); `decode_rs`
is declared in `cpu_core.hpp`, which is not among the sources. -/
def decode_rs (s : core β) : Nat :=
  (s.code >>> 21) &&& 31

/-- Modelled from the spec: field `rt`, bits 20..16 (section 4.1); `decode_rt`
is declared in `cpu_core.hpp`, which is not among the sources. -/
def decode_rt (s : core β) : Nat :=
  (s.code >>> 16) &&& 31

/-- Modelled from the spec: field `rd`, bits 15..11 (section 4.1); `decode_rd`
is declared in `cpu_core.hpp`, which is not among the sources. -/
def decode_rd (s : core β) : Nat :=
  (s.code >>> 11) &&& 31

/-- Modelled from the spec: field `shift-amount`, bits 10..6 (section 4.1);
`decode_sa` is declared in `cpu_core.hpp`, which is not among the sources. -/
def decode_sa (s : core β) : Nat :=
  (s.code >>> 6) &&& 31

/-- Modelled from the spec: field `unsigned-immediate`, bits 15..0,
zero-extended (section 4.1); `decode_uconst` is declared in `cpu_core.hpp`,
which is not among the sources. -/
def decode_uconst (s : core β) : Nat :=
  s.code &&& 0xffff

/-- Modelled from the spec: field `signed-immediate`, bits 15..0, sign-extended
to 32 bits and held as a `uint32_t` (section 4.1); `decode_iconst` is declared
in `cpu_core.hpp`, which is not among the sources. -/
def decode_iconst (s : core β) : Nat :=
  if s.code &&& 0x8000 = 0 then s.code &&& 0xffff else (s.code &&& 0xffff) + 0xffff0000

/-! ## Collaborator calls -/

/-- Modelled from the spec: entry into the exception mechanism.
`core::enter_exception` lives in `cpu_core.cpp`, which is not among the
sources.  Section 4.7: it hands the cause to the exception collaborator and
redirects control flow to the vector that collaborator supplies; it commits
nothing else. -/
def enter_exception (E : collaborators β) (cause : exception_code_t) (s : core β) : core β :=
  let v := E.exception_vector cause (s.regs.pc, s.regs.next_pc)
  { s with
    regs := { s.regs with pc := v.1 % 2 ^ 32, next_pc := v.2 % 2 ^ 32 }
    raised := s.raised ++ [cause] }

/-- Modelled from the spec: data read through the bus; the result is a
`uint32_t`.  `read_data` is declared in `cpu_core.hpp`, which is not among the
sources, and forwards to the bus collaborator (section 6). -/
def read_data (E : collaborators β) (width : bus_width_t) (address : Nat) (s : core β) :
    Nat × core β :=
  let r := E.read_data s.bus width address
  (r.1 % 2 ^ 32, { s with bus := r.2, accesses := s.accesses ++ [bus_access.read width address] })

/-- Modelled from the spec: data write through the bus.  `write_data` is
declared in `cpu_core.hpp`, which is not among the sources, and forwards to the
bus collaborator (section 6). -/
def write_data (E : collaborators β) (width : bus_width_t) (address data : Nat) (s : core β) :
    core β :=
  { s with
    bus := E.write_data s.bus width address data
    accesses := s.accesses ++ [bus_access.write width address data] }

/-! ## Register file and load-delay pipeline -/

/-- Source: `core::get_register`. -/
def get_register (s : core β) (index : Nat) : Nat :=
  if s.is_load_delay_slot && decide (s.load_index = index) then s.load_value
  else s.regs.gp index

/-- Source: `core::get_register_forwarded`. -/
def get_register_forwarded (s : core β) (index : Nat) : Nat :=
  s.regs.gp index

/-- The two assignments `regs.gp[i] = value; regs.gp[0] = 0;`. -/
def write_gp (gp : Nat → Nat) (i value : Nat) : Nat → Nat :=
  Function.update (Function.update gp i value) 0 0

/-- Source: `core::set_rd`. -/
def set_rd (value : Nat) (s : core β) : core β :=
  { s with regs := { s.regs with gp := write_gp s.regs.gp (decode_rd s) value } }

/-- Source: `core::set_rt`. -/
def set_rt (value : Nat) (s : core β) : core β :=
  { s with regs := { s.regs with gp := write_gp s.regs.gp (decode_rt s) value } }

/-- Source: `core::set_rt_load`. -/
def set_rt_load (value : Nat) (s : core β) : core β :=
  let t := decode_rt s
  let gp1 :=
    if s.is_load_delay_slot && decide (s.load_index = t) then Function.update s.regs.gp t s.load_value
    else s.regs.gp
  { s with
    is_load := true
    load_index := t
    load_value := gp1 t
    regs := { s.regs with gp := write_gp gp1 t value } }

/-- Source: `core::get_rt`. -/
def get_rt (s : core β) : Nat :=
  get_register s (decode_rt s)

/-- Source: `core::get_rt_forwarded`. -/
def get_rt_forwarded (s : core β) : Nat :=
  get_register_forwarded s (decode_rt s)

/-- Source: `core::get_rs`. -/
def get_rs (s : core β) : Nat :=
  get_register s (decode_rs s)

/-! ## Arithmetic handlers -/

/-- Source: `core::op_add`. -/
def op_add (E : collaborators β) (s : core β) : core β :=
  let x := get_rs s
  let y := get_rt s
  let z := (x + y) % 2 ^ 32
  if overflow x y z ≠ 0 then enter_exception E exception_code_t.overflow s
  else set_rd z s

/-- Source: `core::op_addi`. -/
def op_addi (E : collaborators β) (s : core β) : core β :=
  let x := get_rs s
  let y := decode_iconst s
  let z := (x + y) % 2 ^ 32
  if overflow x y z ≠ 0 then enter_exception E exception_code_t.overflow s
  else set_rt z s

/-- Source: `core::op_addiu`. -/
def op_addiu (s : core β) : core β :=
  set_rt ((get_rs s + decode_iconst s) % 2 ^ 32) s

/-- Source: `core::op_addu`. -/
def op_addu (s : core β) : core β :=
  set_rd ((get_rs s + get_rt s) % 2 ^ 32) s

/-- Source: `core::op_sub`; `x - y` on `uint32_t` wraps. -/
def op_sub (E : collaborators β) (s : core β) : core β :=
  let x := get_rs s
  let y := get_rt s
  let z := (x + 2 ^ 32 - y % 2 ^ 32) % 2 ^ 32
  if overflow x (not32 y) z ≠ 0 then enter_exception E exception_code_t.overflow s
  else set_rd z s

/-- Source: `core::op_subu`. -/
def op_subu (s : core β) : core β :=
  set_rd ((get_rs s + 2 ^ 32 - get_rt s % 2 ^ 32) % 2 ^ 32) s

/-! ## Multiply / divide handlers -/

/-- Source: `core::op_div`.  The last branch is C++ `/` and `%` on `int32_t`,
which truncate toward zero. -/
def op_div (s : core β) : core β :=
  let dividend := toInt32 (get_rs s)
  let divisor := toInt32 (get_rt s)
  if dividend = toInt32 0x80000000 ∧ divisor = toInt32 0xffffffff then
    { s with regs := { s.regs with lo := 0x80000000, hi := 0 } }
  else if dividend ≥ 0 ∧ divisor = 0 then
    { s with regs := { s.regs with lo := 0xffffffff, hi := toUInt32 dividend } }
  else if dividend ≤ 0 ∧ divisor = 0 then
    { s with regs := { s.regs with lo := 0x00000001, hi := toUInt32 dividend } }
  else
    { s with regs := { s.regs with
        lo := toUInt32 (Int.tdiv dividend divisor)
        hi := toUInt32 (Int.tmod dividend divisor) } }

/-- Source: `core::op_divu`. -/
def op_divu (s : core β) : core β :=
  let dividend := get_rs s
  let divisor := get_rt s
  if divisor ≠ 0 then
    { s with regs := { s.regs with lo := dividend / divisor, hi := dividend % divisor } }
  else
    { s with regs := { s.regs with lo := 0xffffffff, hi := dividend } }

/-- Source: `core::op_mult`.  `result` is the `int64_t` product of two
sign-extended `int32_t` values; `>>` on `int64_t` is the arithmetic shift. -/
def op_mult (s : core β) : core β :=
  let rs := toInt32 (get_rs s)
  let rt := toInt32 (get_rt s)
  let result : Int := rs * rt
  { s with regs := { s.regs with
      lo := toUInt32 (result >>> (0 : Nat))
      hi := toUInt32 (result >>> (32 : Nat)) } }

/-- Source: `core::op_multu`.  `result` is a `uint64_t`. -/
def op_multu (s : core β) : core β :=
  let result := (get_rs s * get_rt s) % 2 ^ 64
  { s with regs := { s.regs with lo := (result >>> 0) % 2 ^ 32, hi := (result >>> 32) % 2 ^ 32 } }

/-! ## Memory handlers -/

/-- Modelled from the spec: sign extension `utility::sclip<16>` of a
`uint32_t`, held as a `uint32_t`.  `utility.hpp` is not among the sources;
section 4.5 says `LH` sign-extends from 16 bits. -/
def sclip16 (x : Nat) : Nat :=
  if x &&& 0x8000 = 0 then x &&& 0xffff else (x &&& 0xffff) + 0xffff0000

/-- Source: `core::op_lh`. -/
def op_lh (E : collaborators β) (s : core β) : core β :=
  let address := (get_rs s + decode_iconst s) % 2 ^ 32
  if address &&& 1 ≠ 0 then enter_exception E exception_code_t.address_error_load s
  else
    let r := read_data E bus_width_t.BUS_WIDTH_HALF address s
    set_rt_load (sclip16 r.1) r.2

/-- Source: `core::op_lhu`. -/
def op_lhu (E : collaborators β) (s : core β) : core β :=
  let address := (get_rs s + decode_iconst s) % 2 ^ 32
  if address &&& 1 ≠ 0 then enter_exception E exception_code_t.address_error_load s
  else
    let r := read_data E bus_width_t.BUS_WIDTH_HALF address s
    set_rt_load r.1 r.2

/-- Source: `core::op_lw`. -/
def op_lw (E : collaborators β) (s : core β) : core β :=
  let address := (get_rs s + decode_iconst s) % 2 ^ 32
  if address &&& 3 ≠ 0 then enter_exception E exception_code_t.address_error_load s
  else
    let r := read_data E bus_width_t.BUS_WIDTH_WORD address s
    set_rt_load r.1 r.2

/-- Source: `core::op_sh`. -/
def op_sh (E : collaborators β) (s : core β) : core β :=
  let address := (get_rs s + decode_iconst s) % 2 ^ 32
  if address &&& 1 ≠ 0 then enter_exception E exception_code_t.address_error_store s
  else
    let data := get_rt s
    write_data E bus_width_t.BUS_WIDTH_HALF address data s

/-- Source: `core::op_sw`. -/
def op_sw (E : collaborators β) (s : core β) : core β :=
  let address := (get_rs s + decode_iconst s) % 2 ^ 32
  if address &&& 3 ≠ 0 then enter_exception E exception_code_t.address_error_store s
  else
    let data := get_rt s
    write_data E bus_width_t.BUS_WIDTH_WORD address data s

/-- Source: `core::op_lwl`.  `~3` is the `uint32_t` `0xfffffffc`; the `default`
label of the `switch` takes the offset `0`. -/
def op_lwl (E : collaborators β) (s : core β) : core β :=
  let address := (get_rs s + decode_iconst s) % 2 ^ 32
  let r := read_data E bus_width_t.BUS_WIDTH_WORD (address &&& not32 3) s
  let data := r.1
  let data :=
    if address &&& 3 = 1 then (data <<< 16) % 2 ^ 32 ||| (get_rt_forwarded r.2 &&& 0x0000ffff)
    else if address &&& 3 = 2 then (data <<< 8) % 2 ^ 32 ||| (get_rt_forwarded r.2 &&& 0x000000ff)
    else if address &&& 3 = 3 then (data <<< 0) % 2 ^ 32 ||| (get_rt_forwarded r.2 &&& 0x00000000)
    else (data <<< 24) % 2 ^ 32 ||| (get_rt_forwarded r.2 &&& 0x00ffffff)
  set_rt_load data r.2

/-- Source: `core::op_lwr`. -/
def op_lwr (E : collaborators β) (s : core β) : core β :=
  let address := (get_rs s + decode_iconst s) % 2 ^ 32
  let r := read_data E bus_width_t.BUS_WIDTH_WORD (address &&& not32 3) s
  let data := r.1
  let data :=
    if address &&& 3 = 1 then (data >>> 8) ||| (get_rt_forwarded r.2 &&& 0xff000000)
    else if address &&& 3 = 2 then (data >>> 16) ||| (get_rt_forwarded r.2 &&& 0xffff0000)
    else if address &&& 3 = 3 then (data >>> 24) ||| (get_rt_forwarded r.2 &&& 0xffffff00)
    else (data >>> 0) ||| (get_rt_forwarded r.2 &&& 0x00000000)
  set_rt_load data r.2

/-! ## Step boundary and sequences of register writes -/

/-- Modelled from the spec: the part of the step loop that the register file
depends on.  The next instruction word is latched and the load flag of the
instruction just executed becomes the delay-slot flag of the next one.  The
step loop (`core::tick`) is in `cpu_core.cpp`, which is not among the sources;
section 4.2 lets exactly one pending load survive one step boundary. -/
def step_boundary (next_code : Nat) (s : core β) : core β :=
  { s with code := next_code, is_load_delay_slot := s.is_load, is_load := false }

/-- One event acting on the register file: a call of `set_rd`, `set_rt` or
`set_rt_load` made while the instruction word is `code`, or a step boundary
latching `code`. -/
inductive reg_event where
  | rd (code value : Nat)
  | rt (code value : Nat)
  | rt_load (code value : Nat)
  | boundary (code : Nat)
  deriving DecidableEq, Repr

/-- Effect of one event. -/
def reg_event.apply (e : reg_event) (s : core β) : core β :=
  match e with
  | reg_event.rd c v => set_rd v { s with code := c }
  | reg_event.rt c v => set_rt v { s with code := c }
  | reg_event.rt_load c v => set_rt_load v { s with code := c }
  | reg_event.boundary c => step_boundary c s

/-- Effect of a sequence of events, first event first. -/
def run_events (es : List reg_event) (s : core β) : core β :=
  es.foldl (fun acc e => e.apply acc) s

/-! ## Observations used in the statements -/

/-- What a fault that suppresses the access leaves behind: `cause` was handed to
`enter_exception`, no bus call was issued, and the registers `gp`, `lo`, `hi`
and the pending-load state are as before. -/
def access_suppressed (cause : exception_code_t) (s s' : core β) : Prop :=
  s'.raised = s.raised ++ [cause] ∧ s'.accesses = s.accesses ∧ s'.bus = s.bus ∧
    s'.regs.gp = s.regs.gp ∧ s'.regs.lo = s.regs.lo ∧ s'.regs.hi = s.regs.hi ∧
    s'.is_load = s.is_load ∧ s'.is_load_delay_slot = s.is_load_delay_slot ∧
    s'.load_index = s.load_index ∧ s'.load_value = s.load_value

/-- The signed 32-bit range. -/
def fitsInt32 (i : Int) : Prop :=
  -2 ^ 31 ≤ i ∧ i ≤ 2 ^ 31 - 1

instance (i : Int) : Decidable (fitsInt32 i) := by
  unfold fitsInt32; infer_instance

/-! ## A concrete machine for evaluation -/

/-- A bus that is a word-addressed memory kept as an association list: a read
returns the last value written to the address, truncated to the width, and `0`
when nothing was written. -/
def memory_bus : collaborators (List (Nat × Nat)) where
  read_data := fun m w a =>
    let v := ((m.find? (fun p => p.1 == a)).map Prod.snd).getD 0
    match w with
    | bus_width_t.BUS_WIDTH_BYTE => (v % 2 ^ 8, m)
    | bus_width_t.BUS_WIDTH_HALF => (v % 2 ^ 16, m)
    | bus_width_t.BUS_WIDTH_WORD => (v % 2 ^ 32, m)
  write_data := fun m w a d =>
    match w with
    | bus_width_t.BUS_WIDTH_BYTE => (a, d % 2 ^ 8) :: m
    | bus_width_t.BUS_WIDTH_HALF => (a, d % 2 ^ 16) :: m
    | bus_width_t.BUS_WIDTH_WORD => (a, d % 2 ^ 32) :: m
  exception_vector := fun _ _ => (0x80000080, 0x80000084)

/-- A state with the given instruction word and register contents, nothing
pending and an empty memory. -/
def core_of (code : Nat) (gp : Nat → Nat) : core (List (Nat × Nat)) where
  regs := { gp := gp, lo := 0, hi := 0, pc := 0, next_pc := 4 }
  code := code
  is_branch := false
  is_load := false
  is_load_delay_slot := false
  load_index := 0
  load_value := 0
  bus := []
  accesses := []
  raised := []

/-- `ADD r3, r1, r2` with `r1 = 0x7fffffff`, `r2 = 1`. -/
def add_overflow_state : core (List (Nat × Nat)) :=
  core_of 0x00221820 (fun i => if i = 1 then 0x7fffffff else if i = 2 then 1 else 0)

/-- `ADD/SUB r3, r1, r2` and `ADDI r2, r1, 0x1820` with `r1 = 5`, `r2 = -3`. -/
def add_fits_state : core (List (Nat × Nat)) :=
  core_of 0x00221820 (fun i => if i = 1 then 5 else if i = 2 then 0xfffffffd else 0)

/-- An R-type word with `rs = 1`, `rt = 2`, `rd = 3` on a register file holding
`a` in `r1` and `b` in `r2`. -/
def operands (a b : Nat) : core (List (Nat × Nat)) :=
  core_of 0x00221820 (fun i => if i = 1 then a else if i = 2 then b else 0)

/-- Invariant behind the hard-wired zero: `gp[0]` holds 0 and a pending load
whose target is register 0 carries the value 0. -/
def zero_invariant (s : core β) : Prop :=
  s.regs.gp 0 = 0 ∧
    ((s.is_load = true ∨ s.is_load_delay_slot = true) → s.load_index = 0 → s.load_value = 0)

/-- A sequence of register-file events that keeps aiming at register 0: a load
into `r0`, the step boundary that puts it in its delay window, writes through
`rd = 0` and `rt = 0`, a second load into `r0` inside the window, and a load
into `r5`. -/
def zero_events : List reg_event :=
  [reg_event.rt_load 0x8c000000 7, reg_event.boundary 0, reg_event.rd 0x00000020 9,
    reg_event.rt_load 0x8c000000 5, reg_event.boundary 0, reg_event.rt 0x24000000 3,
    reg_event.rt_load 0x8c050000 11, reg_event.boundary 0]

/-- `LW r1, 0(r0)` on a register file holding 3 in `r1`. -/
def load_state : core (List (Nat × Nat)) :=
  core_of 0x8c010000 (fun i => if i = 1 then 3 else 0)

/-- The address `get_rs() + decode_iconst()` computed by every memory handler,
a `uint32_t`. -/
def effective_address (s : core β) : Nat :=
  (get_rs s + decode_iconst s) % 2 ^ 32

/-- Closed form of the `LWL` merge at byte offset `k` of bus word `w` with
register content `r`: `(w << (24 - 8k)) | (r & (2^(24 - 8k) - 1))` on 32 bits. -/
def lwl_merge (k w r : Nat) : Nat :=
  (w <<< (24 - 8 * k)) % 2 ^ 32 ||| (r &&& (2 ^ (24 - 8 * k) - 1))

/-- Closed form of the `LWR` merge at byte offset `k` of bus word `w` with
register content `r`: `(w >> 8k) | (r & ~(0xffffffff >> 8k))`. -/
def lwr_merge (k w r : Nat) : Nat :=
  (w >>> (8 * k)) ||| (r &&& not32 (0xffffffff >>> (8 * k)))

/-- A load/store word with base `rs = 1`, target `rt = 2` and offset 0, on a
register file holding the address `a` in `r1` and `b` in `r2`; the memory holds
`0x11223344` at address `0x100`. -/
def memory_state (a b : Nat) : core (List (Nat × Nat)) :=
  { core_of 0x00220000 (fun i => if i = 1 then a else if i = 2 then b else 0) with
    bus := [(0x100, 0x11223344)] }

/-! ## Control-flow handlers -/

/-- Source: `core::op_beq`; `decode_iconst() << 2` and the sum are `uint32_t`. -/
def op_beq (s : core β) : core β :=
  if get_rs s = get_rt s then
    { s with
      regs := { s.regs with next_pc := (s.regs.pc + (decode_iconst s <<< 2) % 2 ^ 32) % 2 ^ 32 }
      is_branch := true }
  else s

/-- Source: `core::op_bne`. -/
def op_bne (s : core β) : core β :=
  if get_rs s ≠ get_rt s then
    { s with
      regs := { s.regs with next_pc := (s.regs.pc + (decode_iconst s <<< 2) % 2 ^ 32) % 2 ^ 32 }
      is_branch := true }
  else s

/-- Source: `core::op_bxx`.  The three statements in source order: `condition`
is computed from `get_rs()`, then `regs.gp[31] = regs.next_pc` for the linking
forms, then the branch on `condition`. -/
def op_bxx (s : core β) : core β :=
  let condition : Bool :=
    if s.code &&& (1 <<< 16) ≠ 0 then decide (toInt32 (get_rs s) ≥ 0)
    else decide (toInt32 (get_rs s) < 0)
  let s1 : core β :=
    if s.code &&& 0x1e0000 = 0x100000 then
      { s with regs := { s.regs with gp := Function.update s.regs.gp 31 s.regs.next_pc } }
    else s
  if condition then
    { s1 with
      regs := { s1.regs with
        next_pc := (s1.regs.pc + (decode_iconst s1 <<< 2) % 2 ^ 32) % 2 ^ 32 }
      is_branch := true }
  else s1

/-- Source: `core::op_j`; `code << 2` is a `uint32_t`. -/
def op_j (s : core β) : core β :=
  { s with
    regs := { s.regs with
      next_pc := (s.regs.pc &&& 0xf0000000) ||| ((s.code <<< 2) % 2 ^ 32 &&& 0x0ffffffc) }
    is_branch := true }

/-- Source: `core::op_jal`. -/
def op_jal (s : core β) : core β :=
  { s with
    regs := { s.regs with
      gp := Function.update s.regs.gp 31 s.regs.next_pc
      next_pc := (s.regs.pc &&& 0xf0000000) ||| ((s.code <<< 2) % 2 ^ 32 &&& 0x0ffffffc) }
    is_branch := true }

/-- `BEQ/BNE r1, r2, -3` (immediate `0xfffd`) at `pc = 0x80011000`,
`next_pc = 0x80011004`, on a register file holding `a` in `r1` and `b` in `r2`. -/
def branch_state (a b : Nat) : core (List (Nat × Nat)) :=
  { core_of 0x1022fffd (fun i => if i = 1 then a else if i = 2 then b else 0) with
    regs := { gp := fun i => if i = 1 then a else if i = 2 then b else 0, lo := 0, hi := 0,
              pc := 0x80011000, next_pc := 0x80011004 } }

/-- The bus behaves as a memory for word accesses: a word read returns the last
word written to that address. -/
def word_memory (E : collaborators β) : Prop :=
  ∀ (b : β) (a d : Nat),
    (E.read_data (E.write_data b bus_width_t.BUS_WIDTH_WORD a d) bus_width_t.BUS_WIDTH_WORD a).1
      % 2 ^ 32 = d % 2 ^ 32

/-- The three steps `ADDIU r1, r0, 5`; `ADDIU r2, r1, 10`; `SW r2, 0(r0)`: the
state `s` is the one in which the first handler runs, and a step boundary
latches each following instruction word. -/
def addiu_addiu_sw (E : collaborators β) (s : core β) : core β :=
  op_sw E (step_boundary 0xac020000 (op_addiu (step_boundary 0x2422000a (op_addiu s))))

/-- The branch condition of `op_bxx` as the source computes it, from
`get_rs()` in the state the handler is entered with: bit 16 of the instruction
word selects `>= 0`, otherwise `< 0`. -/
def bxx_condition (s : core β) : Bool :=
  if s.code &&& (1 <<< 16) ≠ 0 then decide (toInt32 (get_rs s) ≥ 0)
  else decide (toInt32 (get_rs s) < 0)

/-- The ordering described for the linking forms, for comparison with `op_bxx`:
`gp[31]` receives `next_pc` first and the branch condition is then evaluated on
the register file that results. -/
def op_bxx_link_first (s : core β) : core β :=
  let s1 : core β :=
    if s.code &&& 0x1e0000 = 0x100000 then
      { s with regs := { s.regs with gp := Function.update s.regs.gp 31 s.regs.next_pc } }
    else s
  if bxx_condition s1 then
    { s1 with
      regs := { s1.regs with
        next_pc := (s1.regs.pc + (decode_iconst s1 <<< 2) % 2 ^ 32) % 2 ^ 32 }
      is_branch := true }
  else s1

/-- `BLTZAL r31, +4` (word `0x07f00004`) at `pc = 0x1000`, `next_pc = 0x1004`,
with `r31 = 0x80000000`, a negative value. -/
def bltzal_r31_state : core (List (Nat × Nat)) :=
  { core_of 0x07f00004 (fun i => if i = 31 then 0x80000000 else 0) with
    regs := { gp := fun i => if i = 31 then 0x80000000 else 0, lo := 0, hi := 0,
              pc := 0x1000, next_pc := 0x1004 } }

/-- `BGEZ r1, +4` (word `0x04210004`), a non-linking form, at `pc = 0x1000`,
`next_pc = 0x1004`, with `r1 = 5` and `r31 = 9`. -/
def bgez_state : core (List (Nat × Nat)) :=
  { core_of 0x04210004 (fun i => if i = 1 then 5 else if i = 31 then 9 else 0) with
    regs := { gp := fun i => if i = 1 then 5 else if i = 31 then 9 else 0, lo := 0, hi := 0,
              pc := 0x1000, next_pc := 0x1004 } }

/-- `J 0x100` (word `0x08000040`) or, with `link`, `JAL 0x100` (word
`0x0c000040`), at `pc = 0x0ffffffc`, `next_pc = 0x10000000`: the two addresses
differ in their high four bits. -/
def jump_state (link : Bool) : core (List (Nat × Nat)) :=
  { core_of (if link then 0x0c000040 else 0x08000040) (fun _ => 0) with
    regs := { gp := fun _ => 0, lo := 0, hi := 0, pc := 0x0ffffffc, next_pc := 0x10000000 } }

/-! ## Shift handlers

The source passes the shift amount to the C++ operators `<<` and `>>` as it
is.  C++ leaves a shift of a 32-bit value by 32 or more undefined; the three
operators below are the shifts as the built code executes them, where the
shift instruction takes the amount modulo 32. -/

/-- The operator `<<` on `uint32_t`. -/
def shl32 (x n : Nat) : Nat :=
  (x <<< (n % 32)) % 2 ^ 32

/-- The operator `>>` on `uint32_t`: logical shift. -/
def shr32 (x n : Nat) : Nat :=
  x >>> (n % 32)

/-- Source: `core::op_sll`. -/
def op_sll (s : core β) : core β :=
  set_rd (shl32 (get_rt s) (decode_sa s)) s

/-- Source: `core::op_srl`. -/
def op_srl (s : core β) : core β :=
  set_rd (shr32 (get_rt s) (decode_sa s)) s

/-- Source: `core::op_swl`.  The register operand is read with `get_rt()`. -/
def op_swl (E : collaborators β) (s : core β) : core β :=
  let address := (get_rs s + decode_iconst s) % 2 ^ 32
  let r := read_data E bus_width_t.BUS_WIDTH_WORD (address &&& not32 3) s
  let data := r.1
  let data :=
    if address &&& 3 = 1 then (data &&& 0xffff0000) ||| (get_rt r.2 >>> 16)
    else if address &&& 3 = 2 then (data &&& 0xff000000) ||| (get_rt r.2 >>> 8)
    else if address &&& 3 = 3 then (data &&& 0x00000000) ||| (get_rt r.2 >>> 0)
    else (data &&& 0xffffff00) ||| (get_rt r.2 >>> 24)
  write_data E bus_width_t.BUS_WIDTH_WORD (address &&& not32 3) data r.2

/-- Source: `core::op_swr`.  The register operand is read with `get_rt()`; the
left shift is on a `uint32_t`. -/
def op_swr (E : collaborators β) (s : core β) : core β :=
  let address := (get_rs s + decode_iconst s) % 2 ^ 32
  let r := read_data E bus_width_t.BUS_WIDTH_WORD (address &&& not32 3) s
  let data := r.1
  let data :=
    if address &&& 3 = 1 then (data &&& 0x000000ff) ||| (get_rt r.2 <<< 8) % 2 ^ 32
    else if address &&& 3 = 2 then (data &&& 0x0000ffff) ||| (get_rt r.2 <<< 16) % 2 ^ 32
    else if address &&& 3 = 3 then (data &&& 0x00ffffff) ||| (get_rt r.2 <<< 24) % 2 ^ 32
    else (data &&& 0x00000000) ||| (get_rt r.2 <<< 0) % 2 ^ 32
  write_data E bus_width_t.BUS_WIDTH_WORD (address &&& not32 3) data r.2

/-- Closed form of the `SWL` merge at byte offset `k` of bus word `w` with
register value `r`: `(w & ~(2^(8(k+1)) - 1)) | (r >> (24 - 8k))`. -/
def swl_merge (k w r : Nat) : Nat :=
  (w &&& not32 (2 ^ (8 * (k + 1)) - 1)) ||| (r >>> (24 - 8 * k))

/-- Closed form of the `SWR` merge at byte offset `k` of bus word `w` with
register value `r`: `(w & (2^(8k) - 1)) | (r << 8k)` on 32 bits. -/
def swr_merge (k w r : Nat) : Nat :=
  (w &&& (2 ^ (8 * k) - 1)) ||| (r <<< (8 * k)) % 2 ^ 32

/-- `SWL/SWR r2, 0(r1)` executing in the delay slot of a load into `r2`: the
address `a` is in `r1`, the loaded word `0x55667788` is already in `gp[2]`, and
the value `r2` held before the load, `0xaabbccdd`, is in `load_value`. -/
def store_in_delay_slot (a : Nat) : core (List (Nat × Nat)) :=
  { memory_state a 0x55667788 with
    is_load_delay_slot := true, load_index := 2, load_value := 0xaabbccdd }

/-! ## Division with the native operators made partial -/

/-- C++ `a / b` and `a % b` on `int32_t`: no result when `b = 0` or when the
quotient `INT32_MIN / -1` does not fit. -/
def int32_divmod (a b : Int) : Option (Int × Int) :=
  if b = 0 ∨ (a = -2 ^ 31 ∧ b = -1) then none else some (Int.tdiv a b, Int.tmod a b)

/-- C++ `a / b` and `a % b` on `uint32_t`: no result when `b = 0`. -/
def uint32_divmod (a b : Nat) : Option (Nat × Nat) :=
  if b = 0 then none else some (a / b, a % b)

/-- Source: `core::op_div`, with the native `/` and `%` of the last branch
partial: the handler has a result only if that branch has one. -/
def op_div_checked (s : core β) : Option (core β) :=
  let dividend := toInt32 (get_rs s)
  let divisor := toInt32 (get_rt s)
  if dividend = toInt32 0x80000000 ∧ divisor = toInt32 0xffffffff then
    some { s with regs := { s.regs with lo := 0x80000000, hi := 0 } }
  else if dividend ≥ 0 ∧ divisor = 0 then
    some { s with regs := { s.regs with lo := 0xffffffff, hi := toUInt32 dividend } }
  else if dividend ≤ 0 ∧ divisor = 0 then
    some { s with regs := { s.regs with lo := 0x00000001, hi := toUInt32 dividend } }
  else
    (int32_divmod dividend divisor).map fun qr =>
      { s with regs := { s.regs with lo := toUInt32 qr.1, hi := toUInt32 qr.2 } }

/-- Source: `core::op_divu`, with the native `/` and `%` partial. -/
def op_divu_checked (s : core β) : Option (core β) :=
  let dividend := get_rs s
  let divisor := get_rt s
  if divisor ≠ 0 then
    (uint32_divmod dividend divisor).map fun qr =>
      { s with regs := { s.regs with lo := qr.1, hi := qr.2 } }
  else
    some { s with regs := { s.regs with lo := 0xffffffff, hi := dividend } }

/-! # Theorems -/

/-! ## Sign bit and the overflow test -/

theorem bit31_iff (x : Nat) : x.testBit 31 = true ↔ 2 ^ 31 ≤ x % 2 ^ 32 := by
  rw [Nat.testBit_to_div_mod]
  simp only [decide_eq_true_eq]
  omega

theorem not32_bit31 (a : Nat) : (not32 a).testBit 31 = !a.testBit 31 := by
  unfold not32
  rw [Nat.testBit_mod_two_pow, Nat.testBit_xor]
  have h : (0xffffffff : Nat).testBit 31 = true := by decide
  rw [h]
  simp

theorem not32_sign (y : Nat) : 2 ^ 31 ≤ not32 y % 2 ^ 32 ↔ ¬ 2 ^ 31 ≤ y % 2 ^ 32 := by
  rw [← bit31_iff, ← bit31_iff, not32_bit31]
  simp

theorem overflow_ne_zero_iff (x y z : Nat) :
    overflow x y z ≠ 0 ↔
      ((2 ^ 31 ≤ x % 2 ^ 32 ↔ 2 ^ 31 ≤ y % 2 ^ 32) ∧
        ¬ (2 ^ 31 ≤ x % 2 ^ 32 ↔ 2 ^ 31 ≤ z % 2 ^ 32)) := by
  unfold overflow
  have h : (0x80000000 : Nat) = 2 ^ 31 := by norm_num
  rw [h, Nat.and_two_pow, Nat.testBit_and, not32_bit31, Nat.testBit_xor, Nat.testBit_xor]
  rw [← bit31_iff x, ← bit31_iff y, ← bit31_iff z]
  cases x.testBit 31 <;> cases y.testBit 31 <;> cases z.testBit 31 <;> simp

theorem overflow_add_iff (x y : Nat) :
    overflow x y ((x + y) % 2 ^ 32) ≠ 0 ↔ ¬ fitsInt32 (toInt32 x + toInt32 y) := by
  rw [overflow_ne_zero_iff]
  unfold fitsInt32 toInt32
  split_ifs <;> omega

theorem overflow_sub_iff (x y : Nat) :
    overflow x (not32 y) ((x + 2 ^ 32 - y % 2 ^ 32) % 2 ^ 32) ≠ 0 ↔
      ¬ fitsInt32 (toInt32 x - toInt32 y) := by
  rw [overflow_ne_zero_iff, not32_sign]
  unfold fitsInt32 toInt32
  split_ifs <;> omega

theorem toInt32_add_of_fits (x y : Nat) (h : fitsInt32 (toInt32 x + toInt32 y)) :
    toInt32 ((x + y) % 2 ^ 32) = toInt32 x + toInt32 y := by
  unfold fitsInt32 at h
  unfold toInt32 at *
  split_ifs at * <;> omega

theorem toInt32_sub_of_fits (x y : Nat) (h : fitsInt32 (toInt32 x - toInt32 y)) :
    toInt32 ((x + 2 ^ 32 - y % 2 ^ 32) % 2 ^ 32) = toInt32 x - toInt32 y := by
  unfold fitsInt32 at h
  unfold toInt32 at *
  split_ifs at * <;> omega

/-! ## Register writes -/

theorem write_gp_self (gp : Nat → Nat) (i v : Nat) (h : i ≠ 0) : write_gp gp i v i = v := by
  simp [write_gp, Function.update, h]

theorem write_gp_zero (gp : Nat → Nat) (i v : Nat) : write_gp gp i v 0 = 0 := by
  simp [write_gp]

theorem write_gp_other (gp : Nat → Nat) (i v j : Nat) (hj : j ≠ i) (h0 : j ≠ 0) :
    write_gp gp i v j = gp j := by
  simp [write_gp, Function.update, hj, h0]

/-! ## ADD / ADDU -/

/-- C1: when the signed sum of `get(rs)` and `get(rt)` does not fit in 32 bits,
`op_add` is exactly `enter_exception(overflow)`, which records the cause and
leaves every general-purpose register as it was; `op_addu` on the same state
raises nothing and, for `rd != 0`, stores the sum reduced modulo `2 ^ 32` in
`gp[rd]`. -/
theorem op_add_traps_op_addu_wraps (E : collaborators β) (s : core β)
    (hov : ¬ fitsInt32 (toInt32 (get_rs s) + toInt32 (get_rt s))) :
    op_add E s = enter_exception E exception_code_t.overflow s ∧
      (op_add E s).raised = s.raised ++ [exception_code_t.overflow] ∧
      (op_add E s).regs.gp = s.regs.gp ∧
      (op_addu s).raised = s.raised ∧
      (decode_rd s ≠ 0 →
        (op_addu s).regs.gp (decode_rd s) = (get_rs s + get_rt s) % 2 ^ 32) := by
  have h := (overflow_add_iff (get_rs s) (get_rt s)).mpr hov
  have e : op_add E s = enter_exception E exception_code_t.overflow s := by
    unfold op_add
    simp only [h, if_true, ne_eq, not_false_eq_true]
  refine ⟨e, ?_, ?_, rfl, ?_⟩
  · rw [e]; rfl
  · rw [e]; rfl
  · intro hrd
    exact write_gp_self _ _ _ hrd

theorem op_add_traps_op_addu_wraps_witness :
    ¬ fitsInt32 (toInt32 (get_rs add_overflow_state) + toInt32 (get_rt add_overflow_state)) ∧
      (op_add memory_bus add_overflow_state).raised = [exception_code_t.overflow] ∧
      (op_addu add_overflow_state).regs.gp 3 = 0x80000000 := by
  have h := op_add_traps_op_addu_wraps memory_bus add_overflow_state (by decide)
  refine ⟨by decide, h.2.1, ?_⟩
  have h5 := h.2.2.2.2 (by decide)
  exact h5

/-! ## Exactness of the overflow test -/

theorem raised_append_ne (l : List exception_code_t) (c : exception_code_t) : l ++ [c] ≠ l := by
  simp

theorem op_add_cases (E : collaborators β) (s : core β) :
    (¬ fitsInt32 (toInt32 (get_rs s) + toInt32 (get_rt s)) →
        op_add E s = enter_exception E exception_code_t.overflow s) ∧
      (fitsInt32 (toInt32 (get_rs s) + toInt32 (get_rt s)) →
        op_add E s = set_rd ((get_rs s + get_rt s) % 2 ^ 32) s) := by
  constructor
  · intro h
    have h1 := (overflow_add_iff (get_rs s) (get_rt s)).mpr h
    unfold op_add
    simp only [h1, if_true, ne_eq, not_false_eq_true]
  · intro h
    have h1 : ¬ overflow (get_rs s) (get_rt s) ((get_rs s + get_rt s) % 2 ^ 32) ≠ 0 :=
      fun h2 => (overflow_add_iff (get_rs s) (get_rt s)).mp h2 h
    unfold op_add
    simp only [h1, if_false]

theorem op_addi_cases (E : collaborators β) (s : core β) :
    (¬ fitsInt32 (toInt32 (get_rs s) + toInt32 (decode_iconst s)) →
        op_addi E s = enter_exception E exception_code_t.overflow s) ∧
      (fitsInt32 (toInt32 (get_rs s) + toInt32 (decode_iconst s)) →
        op_addi E s = set_rt ((get_rs s + decode_iconst s) % 2 ^ 32) s) := by
  constructor
  · intro h
    have h1 := (overflow_add_iff (get_rs s) (decode_iconst s)).mpr h
    unfold op_addi
    simp only [h1, if_true, ne_eq, not_false_eq_true]
  · intro h
    have h1 : ¬ overflow (get_rs s) (decode_iconst s) ((get_rs s + decode_iconst s) % 2 ^ 32) ≠ 0 :=
      fun h2 => (overflow_add_iff (get_rs s) (decode_iconst s)).mp h2 h
    unfold op_addi
    simp only [h1, if_false]

theorem op_sub_cases (E : collaborators β) (s : core β) :
    (¬ fitsInt32 (toInt32 (get_rs s) - toInt32 (get_rt s)) →
        op_sub E s = enter_exception E exception_code_t.overflow s) ∧
      (fitsInt32 (toInt32 (get_rs s) - toInt32 (get_rt s)) →
        op_sub E s = set_rd ((get_rs s + 2 ^ 32 - get_rt s % 2 ^ 32) % 2 ^ 32) s) := by
  constructor
  · intro h
    have h1 := (overflow_sub_iff (get_rs s) (get_rt s)).mpr h
    unfold op_sub
    simp only [h1, if_true, ne_eq, not_false_eq_true]
  · intro h
    have h1 : ¬ overflow (get_rs s) (not32 (get_rt s))
        ((get_rs s + 2 ^ 32 - get_rt s % 2 ^ 32) % 2 ^ 32) ≠ 0 :=
      fun h2 => (overflow_sub_iff (get_rs s) (get_rt s)).mp h2 h
    unfold op_sub
    simp only [h1, if_false]

/-- C2: the overflow test of `ADD`, `ADDI` and `SUB` is exact.  Each handler
hands `overflow` to `enter_exception` if and only if the mathematical sum
(for `SUB`: difference) of the signed readings of its operands is outside
`[-2^31, 2^31 - 1]`; otherwise it raises nothing and passes to the destination
write (`set_rd`, for `ADDI` `set_rt`) a word whose signed reading is that exact
sum or difference, which is then the content of the destination register when
its index is not 0. -/
theorem overflow_test_exact (E : collaborators β) (s : core β) :
    (((op_add E s).raised = s.raised ++ [exception_code_t.overflow] ↔
          ¬ fitsInt32 (toInt32 (get_rs s) + toInt32 (get_rt s))) ∧
        (fitsInt32 (toInt32 (get_rs s) + toInt32 (get_rt s)) →
          (op_add E s).raised = s.raised ∧
            op_add E s = set_rd ((get_rs s + get_rt s) % 2 ^ 32) s ∧
            toInt32 ((get_rs s + get_rt s) % 2 ^ 32) = toInt32 (get_rs s) + toInt32 (get_rt s) ∧
            (decode_rd s ≠ 0 → toInt32 ((op_add E s).regs.gp (decode_rd s)) =
              toInt32 (get_rs s) + toInt32 (get_rt s)))) ∧
      (((op_addi E s).raised = s.raised ++ [exception_code_t.overflow] ↔
          ¬ fitsInt32 (toInt32 (get_rs s) + toInt32 (decode_iconst s))) ∧
        (fitsInt32 (toInt32 (get_rs s) + toInt32 (decode_iconst s)) →
          (op_addi E s).raised = s.raised ∧
            op_addi E s = set_rt ((get_rs s + decode_iconst s) % 2 ^ 32) s ∧
            toInt32 ((get_rs s + decode_iconst s) % 2 ^ 32) =
              toInt32 (get_rs s) + toInt32 (decode_iconst s) ∧
            (decode_rt s ≠ 0 → toInt32 ((op_addi E s).regs.gp (decode_rt s)) =
              toInt32 (get_rs s) + toInt32 (decode_iconst s)))) ∧
      (((op_sub E s).raised = s.raised ++ [exception_code_t.overflow] ↔
          ¬ fitsInt32 (toInt32 (get_rs s) - toInt32 (get_rt s))) ∧
        (fitsInt32 (toInt32 (get_rs s) - toInt32 (get_rt s)) →
          (op_sub E s).raised = s.raised ∧
            op_sub E s = set_rd ((get_rs s + 2 ^ 32 - get_rt s % 2 ^ 32) % 2 ^ 32) s ∧
            toInt32 ((get_rs s + 2 ^ 32 - get_rt s % 2 ^ 32) % 2 ^ 32) =
              toInt32 (get_rs s) - toInt32 (get_rt s) ∧
            (decode_rd s ≠ 0 → toInt32 ((op_sub E s).regs.gp (decode_rd s)) =
              toInt32 (get_rs s) - toInt32 (get_rt s)))) := by
  refine ⟨⟨?_, ?_⟩, ⟨?_, ?_⟩, ⟨?_, ?_⟩⟩
  · by_cases h : fitsInt32 (toInt32 (get_rs s) + toInt32 (get_rt s))
    · rw [(op_add_cases E s).2 h]
      exact ⟨fun h1 => absurd h1.symm (raised_append_ne _ _), fun h1 => absurd h h1⟩
    · rw [(op_add_cases E s).1 h]
      exact ⟨fun _ => h, fun _ => rfl⟩
  · intro h
    have e := (op_add_cases E s).2 h
    refine ⟨by rw [e]; rfl, e, toInt32_add_of_fits _ _ h, fun hrd => ?_⟩
    rw [e]
    show toInt32 (write_gp _ _ _ _) = _
    rw [write_gp_self _ _ _ hrd]
    exact toInt32_add_of_fits _ _ h
  · by_cases h : fitsInt32 (toInt32 (get_rs s) + toInt32 (decode_iconst s))
    · rw [(op_addi_cases E s).2 h]
      exact ⟨fun h1 => absurd h1.symm (raised_append_ne _ _), fun h1 => absurd h h1⟩
    · rw [(op_addi_cases E s).1 h]
      exact ⟨fun _ => h, fun _ => rfl⟩
  · intro h
    have e := (op_addi_cases E s).2 h
    refine ⟨by rw [e]; rfl, e, toInt32_add_of_fits _ _ h, fun hrt => ?_⟩
    rw [e]
    show toInt32 (write_gp _ _ _ _) = _
    rw [write_gp_self _ _ _ hrt]
    exact toInt32_add_of_fits _ _ h
  · by_cases h : fitsInt32 (toInt32 (get_rs s) - toInt32 (get_rt s))
    · rw [(op_sub_cases E s).2 h]
      exact ⟨fun h1 => absurd h1.symm (raised_append_ne _ _), fun h1 => absurd h h1⟩
    · rw [(op_sub_cases E s).1 h]
      exact ⟨fun _ => h, fun _ => rfl⟩
  · intro h
    have e := (op_sub_cases E s).2 h
    refine ⟨by rw [e]; rfl, e, toInt32_sub_of_fits _ _ h, fun hrd => ?_⟩
    rw [e]
    show toInt32 (write_gp _ _ _ _) = _
    rw [write_gp_self _ _ _ hrd]
    exact toInt32_sub_of_fits _ _ h

theorem overflow_test_exact_witness :
    (fitsInt32 (toInt32 (get_rs add_fits_state) + toInt32 (get_rt add_fits_state)) ∧
        decode_rd add_fits_state ≠ 0 ∧
        toInt32 ((op_add memory_bus add_fits_state).regs.gp (decode_rd add_fits_state)) =
          toInt32 (get_rs add_fits_state) + toInt32 (get_rt add_fits_state)) ∧
      (fitsInt32 (toInt32 (get_rs add_fits_state) + toInt32 (decode_iconst add_fits_state)) ∧
        decode_rt add_fits_state ≠ 0 ∧
        toInt32 ((op_addi memory_bus add_fits_state).regs.gp (decode_rt add_fits_state)) =
          toInt32 (get_rs add_fits_state) + toInt32 (decode_iconst add_fits_state)) ∧
      (fitsInt32 (toInt32 (get_rs add_fits_state) - toInt32 (get_rt add_fits_state)) ∧
        decode_rd add_fits_state ≠ 0 ∧
        toInt32 ((op_sub memory_bus add_fits_state).regs.gp (decode_rd add_fits_state)) =
          toInt32 (get_rs add_fits_state) - toInt32 (get_rt add_fits_state)) ∧
      ¬ fitsInt32 (toInt32 (get_rs add_overflow_state) + toInt32 (get_rt add_overflow_state)) ∧
      (op_add memory_bus add_overflow_state).raised =
        add_overflow_state.raised ++ [exception_code_t.overflow] :=
  ⟨⟨by decide, by decide,
      ((overflow_test_exact memory_bus add_fits_state).1.2 (by decide)).2.2.2 (by decide)⟩,
    ⟨by decide, by decide,
      ((overflow_test_exact memory_bus add_fits_state).2.1.2 (by decide)).2.2.2 (by decide)⟩,
    ⟨by decide, by decide,
      ((overflow_test_exact memory_bus add_fits_state).2.2.2 (by decide)).2.2.2 (by decide)⟩,
    by decide,
    (overflow_test_exact memory_bus add_overflow_state).1.1.mpr (by decide)⟩

/-! ## DIV / DIVU -/

theorem toUInt32_toInt32 (x : Nat) : toUInt32 (toInt32 x) = x % 2 ^ 32 := by
  unfold toUInt32 toInt32
  split_ifs <;> omega

theorem toInt32_mod (x : Nat) : toInt32 (x % 2 ^ 32) = toInt32 x := by
  unfold toInt32
  simp

theorem op_div_raised (s : core β) : (op_div s).raised = s.raised := by
  unfold op_div
  simp only
  split_ifs <;> rfl

theorem op_div_min_neg_one (s : core β)
    (h1 : toInt32 (get_rs s) = toInt32 0x80000000) (h2 : toInt32 (get_rt s) = toInt32 0xffffffff) :
    op_div s = { s with regs := { s.regs with lo := 0x80000000, hi := 0 } } := by
  unfold op_div
  exact if_pos ⟨h1, h2⟩

theorem op_div_zero_nonneg (s : core β) (h0 : toInt32 (get_rt s) = 0)
    (hd : 0 ≤ toInt32 (get_rs s)) :
    op_div s = { s with regs := { s.regs with lo := 0xffffffff, hi := get_rs s % 2 ^ 32 } } := by
  have hne : ¬ (toInt32 (get_rs s) = toInt32 0x80000000 ∧
      toInt32 (get_rt s) = toInt32 0xffffffff) := by
    rw [h0]
    exact fun h => absurd h.2 (by decide)
  unfold op_div
  simp only
  rw [if_neg hne, if_pos ⟨hd, h0⟩, toUInt32_toInt32]

theorem op_div_zero_neg (s : core β) (h0 : toInt32 (get_rt s) = 0)
    (hd : toInt32 (get_rs s) < 0) :
    op_div s = { s with regs := { s.regs with lo := 1, hi := get_rs s % 2 ^ 32 } } := by
  have hne : ¬ (toInt32 (get_rs s) = toInt32 0x80000000 ∧
      toInt32 (get_rt s) = toInt32 0xffffffff) := by
    rw [h0]
    exact fun h => absurd h.2 (by decide)
  have hd1 : ¬ (toInt32 (get_rs s) ≥ 0 ∧ toInt32 (get_rt s) = 0) := fun h => by omega
  have hd2 : toInt32 (get_rs s) ≤ 0 := by omega
  unfold op_div
  simp only
  rw [if_neg hne, if_neg hd1, if_pos ⟨hd2, h0⟩, toUInt32_toInt32]

/-- C3: `op_div` never calls `enter_exception` and implements the special
cases: dividend `0x80000000` with divisor `0xffffffff` gives `lo = 0x80000000`,
`hi = 0`; divisor 0 with a dividend whose signed reading `d` is `>= 0` gives
`lo = 0xffffffff` and `hi` the dividend word (signed reading `d`); divisor 0
with `d < 0` gives `lo = 1` and `hi` the dividend word. -/
theorem op_div_special_cases (s : core β) :
    (op_div s).raised = s.raised ∧
      (get_rs s % 2 ^ 32 = 0x80000000 → get_rt s % 2 ^ 32 = 0xffffffff →
        (op_div s).regs.lo = 0x80000000 ∧ (op_div s).regs.hi = 0) ∧
      (toInt32 (get_rt s) = 0 → 0 ≤ toInt32 (get_rs s) →
        (op_div s).regs.lo = 0xffffffff ∧ (op_div s).regs.hi = get_rs s % 2 ^ 32 ∧
          toInt32 (op_div s).regs.hi = toInt32 (get_rs s)) ∧
      (toInt32 (get_rt s) = 0 → toInt32 (get_rs s) < 0 →
        (op_div s).regs.lo = 1 ∧ (op_div s).regs.hi = get_rs s % 2 ^ 32 ∧
          toInt32 (op_div s).regs.hi = toInt32 (get_rs s)) := by
  refine ⟨op_div_raised s, ?_, ?_, ?_⟩
  · intro h1 h2
    have e1 : toInt32 (get_rs s) = toInt32 0x80000000 := by
      rw [← toInt32_mod, h1]
    have e2 : toInt32 (get_rt s) = toInt32 0xffffffff := by
      rw [← toInt32_mod, h2]
    rw [op_div_min_neg_one s e1 e2]
    exact ⟨rfl, rfl⟩
  · intro h0 hd
    rw [op_div_zero_nonneg s h0 hd]
    exact ⟨rfl, rfl, toInt32_mod _⟩
  · intro h0 hd
    rw [op_div_zero_neg s h0 hd]
    exact ⟨rfl, rfl, toInt32_mod _⟩

theorem op_div_special_cases_witness :
    (get_rs (operands 0x80000000 0xffffffff) % 2 ^ 32 = 0x80000000 ∧
        get_rt (operands 0x80000000 0xffffffff) % 2 ^ 32 = 0xffffffff ∧
        (op_div (operands 0x80000000 0xffffffff)).regs.lo = 0x80000000 ∧
        (op_div (operands 0x80000000 0xffffffff)).regs.hi = 0) ∧
      (toInt32 (get_rt (operands 5 0)) = 0 ∧ 0 ≤ toInt32 (get_rs (operands 5 0)) ∧
        (op_div (operands 5 0)).regs.lo = 0xffffffff ∧ (op_div (operands 5 0)).regs.hi = 5) ∧
      (toInt32 (get_rt (operands 0xfffffffb 0)) = 0 ∧ toInt32 (get_rs (operands 0xfffffffb 0)) < 0 ∧
        (op_div (operands 0xfffffffb 0)).regs.lo = 1 ∧
        toInt32 (op_div (operands 0xfffffffb 0)).regs.hi = -5) :=
  ⟨⟨by decide, by decide,
      (op_div_special_cases (operands 0x80000000 0xffffffff)).2.1 (by decide) (by decide)⟩,
    ⟨by decide, by decide,
      ((op_div_special_cases (operands 5 0)).2.2.1 (by decide) (by decide)).1,
      ((op_div_special_cases (operands 5 0)).2.2.1 (by decide) (by decide)).2.1.trans (by decide)⟩,
    ⟨by decide, by decide,
      ((op_div_special_cases (operands 0xfffffffb 0)).2.2.2 (by decide) (by decide)).1,
      ((op_div_special_cases (operands 0xfffffffb 0)).2.2.2 (by decide) (by decide)).2.2.trans
        (by decide)⟩⟩

/-- C4: `op_divu` with divisor 0 sets `lo = 0xffffffff` and `hi` to the
dividend; with a divisor `d != 0` it sets `lo` and `hi` to the unsigned quotient
and remainder, so that `dividend = lo * d + hi` and `hi < d`; it never calls
`enter_exception` and leaves the general-purpose registers alone. -/
theorem op_divu_spec (s : core β) :
    (op_divu s).raised = s.raised ∧ (op_divu s).regs.gp = s.regs.gp ∧
      (get_rt s = 0 → (op_divu s).regs.lo = 0xffffffff ∧ (op_divu s).regs.hi = get_rs s) ∧
      (get_rt s ≠ 0 →
        (op_divu s).regs.lo = get_rs s / get_rt s ∧ (op_divu s).regs.hi = get_rs s % get_rt s ∧
          get_rs s = (op_divu s).regs.lo * get_rt s + (op_divu s).regs.hi ∧
          (op_divu s).regs.hi < get_rt s) := by
  refine ⟨?_, ?_, ?_, ?_⟩
  · unfold op_divu
    simp only
    split_ifs <;> rfl
  · unfold op_divu
    simp only
    split_ifs <;> rfl
  · intro h
    have e : op_divu s = { s with regs := { s.regs with lo := 0xffffffff, hi := get_rs s } } := by
      unfold op_divu
      exact if_neg (not_not.mpr h)
    rw [e]
    exact ⟨rfl, rfl⟩
  · intro h
    have e : op_divu s =
        { s with regs := { s.regs with lo := get_rs s / get_rt s, hi := get_rs s % get_rt s } } := by
      unfold op_divu
      exact if_pos h
    rw [e]
    refine ⟨rfl, rfl, ?_, Nat.mod_lt _ (Nat.pos_of_ne_zero h)⟩
    show get_rs s = get_rs s / get_rt s * get_rt s + get_rs s % get_rt s
    exact (Nat.div_add_mod' _ _).symm

theorem op_divu_spec_witness :
    (get_rt (operands 0x80000007 0) = 0 ∧ (op_divu (operands 0x80000007 0)).regs.lo = 0xffffffff ∧
        (op_divu (operands 0x80000007 0)).regs.hi = 0x80000007) ∧
      (get_rt (operands 0xfffffffb 7) ≠ 0 ∧ (op_divu (operands 0xfffffffb 7)).regs.lo = 613566755 ∧
        (op_divu (operands 0xfffffffb 7)).regs.hi = 6) :=
  ⟨⟨by decide, ((op_divu_spec (operands 0x80000007 0)).2.2.1 (by decide)).1,
      ((op_divu_spec (operands 0x80000007 0)).2.2.1 (by decide)).2.trans (by decide)⟩,
    ⟨by decide, ((op_divu_spec (operands 0xfffffffb 7)).2.2.2 (by decide)).1.trans (by decide),
      ((op_divu_spec (operands 0xfffffffb 7)).2.2.2 (by decide)).2.1.trans (by decide)⟩⟩

/-! ## MULT / MULTU -/

theorem toInt32_bounds (x : Nat) : -2 ^ 31 ≤ toInt32 x ∧ toInt32 x < 2 ^ 31 := by
  unfold toInt32
  split_ifs <;> omega

theorem int32_product_bounds (a b : Int) (ha : -2 ^ 31 ≤ a ∧ a < 2 ^ 31)
    (hb : -2 ^ 31 ≤ b ∧ b < 2 ^ 31) : -2 ^ 62 < a * b ∧ a * b ≤ 2 ^ 62 := by
  constructor
  · nlinarith [ha.1, ha.2, hb.1, hb.2]
  · nlinarith [ha.1, ha.2, hb.1, hb.2]

theorem halves_of_int64 (p : Int) (h : -2 ^ 62 < p ∧ p ≤ 2 ^ 62) :
    toInt64 (toUInt32 (p >>> (32 : Nat)) * 2 ^ 32 + toUInt32 (p >>> (0 : Nat))) = p := by
  rw [Int.shiftRight_eq_div_pow, Int.shiftRight_eq_div_pow]
  unfold toInt64 toUInt32
  simp only [Nat.cast_pow, Nat.cast_ofNat, pow_zero, Int.ediv_one]
  split_ifs <;> omega

theorem toUInt32_lt (i : Int) : toUInt32 i < 2 ^ 32 := by
  unfold toUInt32
  omega

/-- C5: after `op_mult` the words `hi` and `lo` are 32-bit and `hi * 2^32 + lo`,
read as a signed 64-bit integer, is the exact product of the signed readings of
`get(rs)` and `get(rt)`; after `op_multu` on 32-bit operands `hi * 2^32 + lo` is
the exact product of the operands; neither handler calls `enter_exception`. -/
theorem op_mult_op_multu_exact (s : core β) :
    ((op_mult s).regs.lo < 2 ^ 32 ∧ (op_mult s).regs.hi < 2 ^ 32 ∧
        toInt64 ((op_mult s).regs.hi * 2 ^ 32 + (op_mult s).regs.lo) =
          toInt32 (get_rs s) * toInt32 (get_rt s) ∧
        (op_mult s).raised = s.raised) ∧
      ((op_multu s).regs.lo < 2 ^ 32 ∧ (op_multu s).regs.hi < 2 ^ 32 ∧
        (get_rs s < 2 ^ 32 → get_rt s < 2 ^ 32 →
          (op_multu s).regs.hi * 2 ^ 32 + (op_multu s).regs.lo = get_rs s * get_rt s) ∧
        (op_multu s).raised = s.raised) := by
  refine ⟨⟨toUInt32_lt _, toUInt32_lt _, ?_, rfl⟩, ⟨?_, ?_, ?_, rfl⟩⟩
  · exact halves_of_int64 _ (int32_product_bounds _ _ (toInt32_bounds _) (toInt32_bounds _))
  · exact Nat.mod_lt _ (by norm_num)
  · exact Nat.mod_lt _ (by norm_num)
  · intro hx hy
    show (get_rs s * get_rt s % 2 ^ 64) >>> 32 % 2 ^ 32 * 2 ^ 32 +
      (get_rs s * get_rt s % 2 ^ 64) >>> 0 % 2 ^ 32 = get_rs s * get_rt s
    have hp : get_rs s * get_rt s < 2 ^ 64 := by
      calc get_rs s * get_rt s < 2 ^ 32 * 2 ^ 32 := Nat.mul_lt_mul'' hx hy
        _ = 2 ^ 64 := by norm_num
    rw [Nat.shiftRight_eq_div_pow, Nat.shiftRight_eq_div_pow]
    generalize get_rs s * get_rt s = p at hp
    omega

theorem op_mult_op_multu_exact_witness :
    get_rs (operands 0xffffffff 0xfffffffe) < 2 ^ 32 ∧
      get_rt (operands 0xffffffff 0xfffffffe) < 2 ^ 32 ∧
      (op_multu (operands 0xffffffff 0xfffffffe)).regs.hi * 2 ^ 32 +
          (op_multu (operands 0xffffffff 0xfffffffe)).regs.lo =
        get_rs (operands 0xffffffff 0xfffffffe) * get_rt (operands 0xffffffff 0xfffffffe) :=
  ⟨by decide, by decide,
    (op_mult_op_multu_exact (operands 0xffffffff 0xfffffffe)).2.2.2.1 (by decide) (by decide)⟩

/-! ## Register 0 -/

theorem zero_invariant_set_rd (v : Nat) (s : core β) (h : zero_invariant s) :
    zero_invariant (set_rd v s) :=
  ⟨write_gp_zero s.regs.gp (decode_rd s) v, h.2⟩

theorem zero_invariant_set_rt (v : Nat) (s : core β) (h : zero_invariant s) :
    zero_invariant (set_rt v s) :=
  ⟨write_gp_zero s.regs.gp (decode_rt s) v, h.2⟩

theorem zero_invariant_set_rt_load (v : Nat) (s : core β) (h : zero_invariant s) :
    zero_invariant (set_rt_load v s) := by
  refine ⟨?_, fun _ ht => ?_⟩
  · simp only [set_rt_load]
    exact write_gp_zero _ _ _
  have ht0 : decode_rt s = 0 := ht
  show (if s.is_load_delay_slot && decide (s.load_index = decode_rt s) then
      Function.update s.regs.gp (decode_rt s) s.load_value else s.regs.gp) (decode_rt s) = 0
  rw [ht0]
  by_cases hc : (s.is_load_delay_slot && decide (s.load_index = 0)) = true
  · rw [if_pos hc, Function.update_same]
    simp only [Bool.and_eq_true, decide_eq_true_eq] at hc
    exact h.2 (Or.inr hc.1) hc.2
  · rw [if_neg hc]
    exact h.1

theorem zero_invariant_code (c : Nat) (s : core β) (h : zero_invariant s) :
    zero_invariant { s with code := c } :=
  h

theorem zero_invariant_step_boundary (c : Nat) (s : core β) (h : zero_invariant s) :
    zero_invariant (step_boundary c s) := by
  refine ⟨h.1, fun hp hi => ?_⟩
  rcases hp with hp | hp
  · exact absurd hp (by simp [step_boundary])
  · exact h.2 (Or.inl hp) hi

theorem zero_invariant_apply (e : reg_event) (s : core β) (h : zero_invariant s) :
    zero_invariant (e.apply s) := by
  cases e with
  | rd c v => exact zero_invariant_set_rd v _ (zero_invariant_code c s h)
  | rt c v => exact zero_invariant_set_rt v _ (zero_invariant_code c s h)
  | rt_load c v => exact zero_invariant_set_rt_load v _ (zero_invariant_code c s h)
  | boundary c => exact zero_invariant_step_boundary c s h

theorem zero_invariant_run (es : List reg_event) (s : core β) (h : zero_invariant s) :
    zero_invariant (run_events es s) := by
  induction es generalizing s with
  | nil => exact h
  | cons e es ih => exact ih (e.apply s) (zero_invariant_apply e s h)

theorem get_register_zero (s : core β) (h : zero_invariant s) : get_register s 0 = 0 := by
  unfold get_register
  by_cases hc : (s.is_load_delay_slot && decide (s.load_index = 0)) = true
  · rw [if_pos hc]
    simp only [Bool.and_eq_true, decide_eq_true_eq] at hc
    exact h.2 (Or.inr hc.1) hc.2
  · rw [if_neg hc]
    exact h.1

/-- C6: register 0 is hard-wired to zero.  From any state with `gp[0] = 0` and
no load pending, after any sequence of `set_rd`, `set_rt` and `set_rt_load`
calls under arbitrary instruction words, interleaved with arbitrary step
boundaries (so also with a load into index 0 sitting in its delay window),
`gp[0] = 0` and `get_register(0)` returns 0. -/
theorem register_zero_hardwired (es : List reg_event) (s : core β) (h0 : s.regs.gp 0 = 0)
    (hl : s.is_load = false) (hd : s.is_load_delay_slot = false) :
    (run_events es s).regs.gp 0 = 0 ∧ get_register (run_events es s) 0 = 0 := by
  have hs : zero_invariant s := by
    refine ⟨h0, fun hp => ?_⟩
    rcases hp with hp | hp
    · rw [hl] at hp
      exact absurd hp (by decide)
    · rw [hd] at hp
      exact absurd hp (by decide)
  have hr := zero_invariant_run es s hs
  exact ⟨hr.1, get_register_zero _ hr⟩

theorem register_zero_hardwired_witness :
    (core_of 0 (fun _ => 0)).regs.gp 0 = 0 ∧ (core_of 0 (fun _ => 0)).is_load = false ∧
      (core_of 0 (fun _ => 0)).is_load_delay_slot = false ∧
      (run_events zero_events (core_of 0 (fun _ => 0))).regs.gp 0 = 0 ∧
      get_register (run_events zero_events (core_of 0 (fun _ => 0))) 0 = 0 :=
  ⟨rfl, rfl, rfl, register_zero_hardwired zero_events (core_of 0 (fun _ => 0)) rfl rfl rfl⟩

/-! ## Load delay -/

theorem set_rt_load_load_value (v : Nat) (s : core β) :
    (set_rt_load v s).load_value = get_register s (decode_rt s) := by
  unfold set_rt_load get_register
  simp only
  by_cases hc : (s.is_load_delay_slot && decide (s.load_index = decode_rt s)) = true
  · rw [if_pos hc, if_pos hc, Function.update_same]
  · rw [if_neg hc, if_neg hc]

theorem set_rt_load_gp (v : Nat) (s : core β) (ht : decode_rt s ≠ 0) :
    (set_rt_load v s).regs.gp (decode_rt s) = v := by
  simp only [set_rt_load]
  exact write_gp_self _ _ _ ht

theorem get_register_of_pending (s : core β) (j : Nat) (hd : s.is_load_delay_slot = true)
    (hj : s.load_index = j) : get_register s j = s.load_value := by
  unfold get_register
  rw [if_pos (by simp [hd, hj])]

theorem get_register_of_not_pending (s : core β) (j : Nat)
    (h : s.is_load_delay_slot = false ∨ s.load_index ≠ j) : get_register s j = s.regs.gp j := by
  unfold get_register
  rw [if_neg]
  rcases h with h | h
  · simp [h]
  · simp [h]

theorem set_rd_gp_other (w : Nat) (s : core β) (j : Nat) (hj : j ≠ decode_rd s) (h0 : j ≠ 0) :
    (set_rd w s).regs.gp j = s.regs.gp j :=
  write_gp_other s.regs.gp (decode_rd s) w j hj h0

theorem set_rt_gp_other (w : Nat) (s : core β) (j : Nat) (hj : j ≠ decode_rt s) (h0 : j ≠ 0) :
    (set_rt w s).regs.gp j = s.regs.gp j :=
  write_gp_other s.regs.gp (decode_rt s) w j hj h0

/-- C7, as the code has it: if `set_rt_load(v)` targets a register `t != 0` whose
visible value `get_register(t)` was `u`, then in the next instruction (after the
step boundary) `get_register(t)` still returns `u`.  In the instruction after
that `get_register(t)` returns `v` provided the instruction in between left
`gp[t]` alone and scheduled no new load into `t`; this covers an instruction in
between that writes nothing and one that writes another register through
`set_rd` or `set_rt`.  If the instruction in between writes `w` to `t` through
`set_rd` or `set_rt`, `get_register(t)` returns `w`. -/
theorem load_delay_old_then_new (s : core β) (v c1 : Nat) (ht : decode_rt s ≠ 0) :
    get_register (step_boundary c1 (set_rt_load v s)) (decode_rt s) =
        get_register s (decode_rt s) ∧
      (∀ (s2 : core β) (c2 : Nat),
        s2.regs.gp (decode_rt s) = (step_boundary c1 (set_rt_load v s)).regs.gp (decode_rt s) →
        (s2.is_load = false ∨ s2.load_index ≠ decode_rt s) →
        get_register (step_boundary c2 s2) (decode_rt s) = v) ∧
      (∀ c2 : Nat,
        get_register (step_boundary c2 (step_boundary c1 (set_rt_load v s))) (decode_rt s) = v) ∧
      (∀ w c2 : Nat,
        (decode_rt s ≠ decode_rd (step_boundary c1 s) →
          get_register (step_boundary c2 (set_rd w (step_boundary c1 (set_rt_load v s))))
            (decode_rt s) = v) ∧
        (decode_rt s ≠ decode_rt (step_boundary c1 s) →
          get_register (step_boundary c2 (set_rt w (step_boundary c1 (set_rt_load v s))))
            (decode_rt s) = v) ∧
        (decode_rt s = decode_rd (step_boundary c1 s) →
          get_register (step_boundary c2 (set_rd w (step_boundary c1 (set_rt_load v s))))
            (decode_rt s) = w) ∧
        (decode_rt s = decode_rt (step_boundary c1 s) →
          get_register (step_boundary c2 (set_rt w (step_boundary c1 (set_rt_load v s))))
            (decode_rt s) = w)) := by
  have frame : ∀ (s2 : core β) (c2 : Nat),
      s2.regs.gp (decode_rt s) = (step_boundary c1 (set_rt_load v s)).regs.gp (decode_rt s) →
      (s2.is_load = false ∨ s2.load_index ≠ decode_rt s) →
      get_register (step_boundary c2 s2) (decode_rt s) = v := by
    intro s2 c2 hgp hl
    rw [get_register_of_not_pending (step_boundary c2 s2) (decode_rt s) hl]
    exact hgp.trans (set_rt_load_gp v s ht)
  refine ⟨?_, frame, fun c2 => frame _ c2 rfl (Or.inl rfl), fun w c2 => ⟨?_, ?_, ?_, ?_⟩⟩
  · rw [get_register_of_pending (step_boundary c1 (set_rt_load v s)) (decode_rt s) rfl rfl]
    exact set_rt_load_load_value v s
  · intro hne
    exact frame _ c2 (set_rd_gp_other w _ _ hne ht) (Or.inl rfl)
  · intro hne
    exact frame _ c2 (set_rt_gp_other w _ _ hne ht) (Or.inl rfl)
  · intro he
    rw [get_register_of_not_pending _ _ (Or.inl rfl)]
    show write_gp _ (decode_rd (step_boundary c1 s)) w (decode_rt s) = w
    rw [← he]
    exact write_gp_self _ _ _ ht
  · intro he
    rw [get_register_of_not_pending _ _ (Or.inl rfl)]
    show write_gp _ (decode_rt (step_boundary c1 s)) w (decode_rt s) = w
    rw [← he]
    exact write_gp_self _ _ _ ht

theorem load_delay_old_then_new_witness :
    decode_rt load_state ≠ 0 ∧
      get_register (step_boundary 0x00201820 (set_rt_load 7 load_state)) (decode_rt load_state) =
        get_register load_state (decode_rt load_state) ∧
      (decode_rt load_state ≠ decode_rd (step_boundary 0x00201820 load_state) ∧
        get_register
            (step_boundary 0 (set_rd 9 (step_boundary 0x00201820 (set_rt_load 7 load_state))))
            (decode_rt load_state) = 7) ∧
      (decode_rt load_state = decode_rt (step_boundary 0x24010009 load_state) ∧
        get_register
            (step_boundary 0 (set_rt 9 (step_boundary 0x24010009 (set_rt_load 7 load_state))))
            (decode_rt load_state) = 9) :=
  ⟨by decide, (load_delay_old_then_new load_state 7 0x00201820 (by decide)).1,
    ⟨by decide,
      ((load_delay_old_then_new load_state 7 0x00201820 (by decide)).2.2.2 9 0).1 (by decide)⟩,
    ⟨by decide,
      ((load_delay_old_then_new load_state 7 0x24010009 (by decide)).2.2.2 9 0).2.2.2
        (by decide)⟩⟩

/-- C7 as stated fails: `LW r1` loads 7 into `r1`, which held 3, and
`ADDIU r1, r0, 9` executes in the delay slot.  In the instruction after that the
delay flag is clear and no new load targets `r1`, yet `get_register(1)` returns
9, the value written in the delay slot, and not the loaded value 7. -/
theorem load_delay_slot_write_replaces_load :
    decode_rt load_state = 1 ∧
      get_register (step_boundary 0x24010009 (set_rt_load 7 load_state)) 1 = 3 ∧
      (step_boundary 0 (op_addiu (step_boundary 0x24010009 (set_rt_load 7 load_state)))
        ).is_load_delay_slot = false ∧
      (step_boundary 0 (op_addiu (step_boundary 0x24010009 (set_rt_load 7 load_state)))
        ).is_load = false ∧
      get_register
        (step_boundary 0 (op_addiu (step_boundary 0x24010009 (set_rt_load 7 load_state)))) 1 =
          9 ∧
      get_register
        (step_boundary 0 (op_addiu (step_boundary 0x24010009 (set_rt_load 7 load_state)))) 1 ≠
          7 := by
  decide

/-- C8, as the code has it: while a load scheduled by `set_rt_load(v)` into
`i != 0` is in its delay window, `get_register(i)` returns `load_value`, which
is the value that was visible in register `i` before the load, and the loaded
value `v` is already in `gp[i]`; in any state, for an index `j` that is not the
target of a load in its delay window, `get_register(j)` returns `gp[j]`. -/
theorem get_register_in_delay_window (s : core β) (v c : Nat) (ht : decode_rt s ≠ 0) :
    (get_register (step_boundary c (set_rt_load v s)) (decode_rt s) =
          (step_boundary c (set_rt_load v s)).load_value ∧
        (step_boundary c (set_rt_load v s)).load_value = get_register s (decode_rt s) ∧
        (step_boundary c (set_rt_load v s)).regs.gp (decode_rt s) = v) ∧
      ∀ (s' : core β) (j : Nat), (s'.is_load_delay_slot = false ∨ s'.load_index ≠ j) →
        get_register s' j = s'.regs.gp j :=
  ⟨⟨get_register_of_pending (step_boundary c (set_rt_load v s)) (decode_rt s) rfl rfl,
      set_rt_load_load_value v s, set_rt_load_gp v s ht⟩,
    fun s' j h => get_register_of_not_pending s' j h⟩

theorem get_register_in_delay_window_witness :
    decode_rt load_state ≠ 0 ∧
      get_register (step_boundary 0 (set_rt_load 7 load_state)) (decode_rt load_state) =
        get_register load_state (decode_rt load_state) ∧
      (step_boundary 0 (set_rt_load 7 load_state)).regs.gp (decode_rt load_state) = 7 ∧
      get_register (step_boundary 0 (set_rt_load 7 load_state)) 2 =
        (step_boundary 0 (set_rt_load 7 load_state)).regs.gp 2 :=
  ⟨by decide,
    (get_register_in_delay_window load_state 7 0 (by decide)).1.1.trans
      (get_register_in_delay_window load_state 7 0 (by decide)).1.2.1,
    (get_register_in_delay_window load_state 7 0 (by decide)).1.2.2,
    (get_register_in_delay_window load_state 7 0 (by decide)).2 _ 2 (Or.inr (by decide))⟩

/-- C8 as stated fails: `LW r1` scheduling 7 into `r1`, which held 3; in the
delay window `get_register(1)` returns 3, the value from before the load, and
not the loaded value 7. -/
theorem get_register_pending_is_not_loaded_value :
    decode_rt load_state = 1 ∧ get_register load_state 1 = 3 ∧
      (step_boundary 0 (set_rt_load 7 load_state)).is_load_delay_slot = true ∧
      (step_boundary 0 (set_rt_load 7 load_state)).load_index = 1 ∧
      get_register (step_boundary 0 (set_rt_load 7 load_state)) 1 = 3 ∧
      get_register (step_boundary 0 (set_rt_load 7 load_state)) 1 ≠ 7 := by
  decide

/-! ## Alignment faults -/

theorem enter_exception_suppressed (E : collaborators β) (cause : exception_code_t)
    (s : core β) : access_suppressed cause s (enter_exception E cause s) :=
  ⟨rfl, rfl, rfl, rfl, rfl, rfl, rfl, rfl, rfl, rfl⟩

theorem op_lh_misaligned (E : collaborators β) (s : core β) (h : effective_address s &&& 1 ≠ 0) :
    op_lh E s = enter_exception E exception_code_t.address_error_load s := by
  unfold op_lh
  exact if_pos h

theorem op_lhu_misaligned (E : collaborators β) (s : core β) (h : effective_address s &&& 1 ≠ 0) :
    op_lhu E s = enter_exception E exception_code_t.address_error_load s := by
  unfold op_lhu
  exact if_pos h

theorem op_lw_misaligned (E : collaborators β) (s : core β) (h : effective_address s &&& 3 ≠ 0) :
    op_lw E s = enter_exception E exception_code_t.address_error_load s := by
  unfold op_lw
  exact if_pos h

theorem op_sh_misaligned (E : collaborators β) (s : core β) (h : effective_address s &&& 1 ≠ 0) :
    op_sh E s = enter_exception E exception_code_t.address_error_store s := by
  unfold op_sh
  exact if_pos h

theorem op_sw_misaligned (E : collaborators β) (s : core β) (h : effective_address s &&& 3 ≠ 0) :
    op_sw E s = enter_exception E exception_code_t.address_error_store s := by
  unfold op_sw
  exact if_pos h

theorem op_lh_aligned (E : collaborators β) (s : core β) (h : effective_address s &&& 1 = 0) :
    op_lh E s =
      set_rt_load (sclip16 (read_data E bus_width_t.BUS_WIDTH_HALF (effective_address s) s).1)
        (read_data E bus_width_t.BUS_WIDTH_HALF (effective_address s) s).2 := by
  unfold op_lh
  exact if_neg (not_not.mpr h)

theorem op_lhu_aligned (E : collaborators β) (s : core β) (h : effective_address s &&& 1 = 0) :
    op_lhu E s =
      set_rt_load (read_data E bus_width_t.BUS_WIDTH_HALF (effective_address s) s).1
        (read_data E bus_width_t.BUS_WIDTH_HALF (effective_address s) s).2 := by
  unfold op_lhu
  exact if_neg (not_not.mpr h)

theorem op_lw_aligned (E : collaborators β) (s : core β) (h : effective_address s &&& 3 = 0) :
    op_lw E s =
      set_rt_load (read_data E bus_width_t.BUS_WIDTH_WORD (effective_address s) s).1
        (read_data E bus_width_t.BUS_WIDTH_WORD (effective_address s) s).2 := by
  unfold op_lw
  exact if_neg (not_not.mpr h)

theorem op_sh_aligned (E : collaborators β) (s : core β) (h : effective_address s &&& 1 = 0) :
    op_sh E s = write_data E bus_width_t.BUS_WIDTH_HALF (effective_address s) (get_rt s) s := by
  unfold op_sh
  exact if_neg (not_not.mpr h)

theorem op_sw_aligned (E : collaborators β) (s : core β) (h : effective_address s &&& 3 = 0) :
    op_sw E s = write_data E bus_width_t.BUS_WIDTH_WORD (effective_address s) (get_rt s) s := by
  unfold op_sw
  exact if_neg (not_not.mpr h)

/-- C9: alignment faults suppress the access.  When bit 0 of the address is
set, `op_lh` and `op_lhu` hand `address_error_load` and `op_sh` hands
`address_error_store` to `enter_exception`; when either of the low two bits is
set, `op_lw` and `op_sw` do the same; in each case no bus call is issued and
the general-purpose registers and the pending-load state are unchanged.  For
an aligned address no exception is raised and exactly the one bus call of the
handler is issued. -/
theorem alignment_faults_suppress_access (E : collaborators β) (s : core β) :
    (effective_address s &&& 1 ≠ 0 →
        access_suppressed exception_code_t.address_error_load s (op_lh E s) ∧
          access_suppressed exception_code_t.address_error_load s (op_lhu E s) ∧
          access_suppressed exception_code_t.address_error_store s (op_sh E s)) ∧
      (effective_address s &&& 3 ≠ 0 →
        access_suppressed exception_code_t.address_error_load s (op_lw E s) ∧
          access_suppressed exception_code_t.address_error_store s (op_sw E s)) ∧
      (effective_address s &&& 1 = 0 →
        ((op_lh E s).raised = s.raised ∧ (op_lh E s).accesses =
            s.accesses ++ [bus_access.read bus_width_t.BUS_WIDTH_HALF (effective_address s)]) ∧
          ((op_lhu E s).raised = s.raised ∧ (op_lhu E s).accesses =
            s.accesses ++ [bus_access.read bus_width_t.BUS_WIDTH_HALF (effective_address s)]) ∧
          ((op_sh E s).raised = s.raised ∧ (op_sh E s).accesses =
            s.accesses ++
              [bus_access.write bus_width_t.BUS_WIDTH_HALF (effective_address s) (get_rt s)])) ∧
      (effective_address s &&& 3 = 0 →
        ((op_lw E s).raised = s.raised ∧ (op_lw E s).accesses =
            s.accesses ++ [bus_access.read bus_width_t.BUS_WIDTH_WORD (effective_address s)]) ∧
          ((op_sw E s).raised = s.raised ∧ (op_sw E s).accesses =
            s.accesses ++
              [bus_access.write bus_width_t.BUS_WIDTH_WORD (effective_address s) (get_rt s)])) := by
  refine ⟨fun h => ⟨?_, ?_, ?_⟩, fun h => ⟨?_, ?_⟩, fun h => ⟨?_, ?_, ?_⟩, fun h => ⟨?_, ?_⟩⟩
  · rw [op_lh_misaligned E s h]
    exact enter_exception_suppressed E _ s
  · rw [op_lhu_misaligned E s h]
    exact enter_exception_suppressed E _ s
  · rw [op_sh_misaligned E s h]
    exact enter_exception_suppressed E _ s
  · rw [op_lw_misaligned E s h]
    exact enter_exception_suppressed E _ s
  · rw [op_sw_misaligned E s h]
    exact enter_exception_suppressed E _ s
  · rw [op_lh_aligned E s h]
    exact ⟨rfl, rfl⟩
  · rw [op_lhu_aligned E s h]
    exact ⟨rfl, rfl⟩
  · rw [op_sh_aligned E s h]
    exact ⟨rfl, rfl⟩
  · rw [op_lw_aligned E s h]
    exact ⟨rfl, rfl⟩
  · rw [op_sw_aligned E s h]
    exact ⟨rfl, rfl⟩

theorem alignment_faults_suppress_access_witness :
    (effective_address (memory_state 0x101 9) &&& 1 ≠ 0 ∧
        access_suppressed exception_code_t.address_error_load (memory_state 0x101 9)
          (op_lh memory_bus (memory_state 0x101 9))) ∧
      (effective_address (memory_state 0x102 9) &&& 3 ≠ 0 ∧
        access_suppressed exception_code_t.address_error_store (memory_state 0x102 9)
          (op_sw memory_bus (memory_state 0x102 9))) ∧
      (effective_address (memory_state 0x102 9) &&& 1 = 0 ∧
        (op_lhu memory_bus (memory_state 0x102 9)).raised = (memory_state 0x102 9).raised) ∧
      (effective_address (memory_state 0x100 9) &&& 3 = 0 ∧
        (op_lw memory_bus (memory_state 0x100 9)).raised = (memory_state 0x100 9).raised) :=
  ⟨⟨by decide, ((alignment_faults_suppress_access memory_bus _).1 (by decide)).1⟩,
    ⟨by decide, ((alignment_faults_suppress_access memory_bus _).2.1 (by decide)).2⟩,
    ⟨by decide, ((alignment_faults_suppress_access memory_bus _).2.2.1 (by decide)).2.1.1⟩,
    ⟨by decide, ((alignment_faults_suppress_access memory_bus _).2.2.2 (by decide)).1.1⟩⟩

/-! ## LWL / LWR -/

theorem not32_three : not32 3 = 0xfffffffc := by decide

theorem and_three_cases (a : Nat) : a &&& 3 = 0 ∨ a &&& 3 = 1 ∨ a &&& 3 = 2 ∨ a &&& 3 = 3 := by
  have h : a &&& 3 ≤ 3 := Nat.and_le_right
  omega

theorem lwl_switch (k w r : Nat) (hk : k = 0 ∨ k = 1 ∨ k = 2 ∨ k = 3) :
    (if k = 1 then (w <<< 16) % 2 ^ 32 ||| (r &&& 0x0000ffff)
      else if k = 2 then (w <<< 8) % 2 ^ 32 ||| (r &&& 0x000000ff)
      else if k = 3 then (w <<< 0) % 2 ^ 32 ||| (r &&& 0x00000000)
      else (w <<< 24) % 2 ^ 32 ||| (r &&& 0x00ffffff)) = lwl_merge k w r := by
  rcases hk with h | h | h | h <;> subst h <;> rfl

theorem lwr_switch (k w r : Nat) (hk : k = 0 ∨ k = 1 ∨ k = 2 ∨ k = 3) :
    (if k = 1 then (w >>> 8) ||| (r &&& 0xff000000)
      else if k = 2 then (w >>> 16) ||| (r &&& 0xffff0000)
      else if k = 3 then (w >>> 24) ||| (r &&& 0xffffff00)
      else (w >>> 0) ||| (r &&& 0x00000000)) = lwr_merge k w r := by
  rcases hk with h | h | h | h <;> subst h <;> rfl

theorem op_lwl_eq (E : collaborators β) (s : core β) :
    op_lwl E s =
      set_rt_load
        (lwl_merge (effective_address s &&& 3)
          (read_data E bus_width_t.BUS_WIDTH_WORD (effective_address s &&& 0xfffffffc) s).1
          (s.regs.gp (decode_rt s)))
        (read_data E bus_width_t.BUS_WIDTH_WORD (effective_address s &&& 0xfffffffc) s).2 := by
  rw [← lwl_switch _ _ _ (and_three_cases (effective_address s)), ← not32_three]
  rfl

theorem op_lwr_eq (E : collaborators β) (s : core β) :
    op_lwr E s =
      set_rt_load
        (lwr_merge (effective_address s &&& 3)
          (read_data E bus_width_t.BUS_WIDTH_WORD (effective_address s &&& 0xfffffffc) s).1
          (s.regs.gp (decode_rt s)))
        (read_data E bus_width_t.BUS_WIDTH_WORD (effective_address s &&& 0xfffffffc) s).2 := by
  rw [← lwr_switch _ _ _ (and_three_cases (effective_address s)), ← not32_three]
  rfl

/-- C10: for every address `a` with `k = a & 3`, `op_lwl` issues exactly one
word read at `a & ~3`, obtaining `w`, and calls `set_rt_load` with
`(w << (24 - 8k)) | (gp[rt] & (2^(24 - 8k) - 1))`, where `gp[rt]` is the
register-file content (`get_register_forwarded`); for `k = 2` that value is
`(w << 8) | (gp[rt] & 0xff)`.  `op_lwr` does the same with
`(w >> 8k) | (gp[rt] & ~(0xffffffff >> 8k))`.  Neither calls `enter_exception`
for any address, and for `rt != 0` the merged value is in `gp[rt]` afterwards
with the load marked pending on `rt`. -/
theorem op_lwl_op_lwr_merge (E : collaborators β) (s : core β) :
    (op_lwl E s =
          set_rt_load
            (lwl_merge (effective_address s &&& 3)
              (read_data E bus_width_t.BUS_WIDTH_WORD (effective_address s &&& 0xfffffffc) s).1
              (get_register_forwarded s (decode_rt s)))
            (read_data E bus_width_t.BUS_WIDTH_WORD (effective_address s &&& 0xfffffffc) s).2 ∧
        (op_lwl E s).raised = s.raised ∧
        (op_lwl E s).accesses = s.accesses ++
          [bus_access.read bus_width_t.BUS_WIDTH_WORD (effective_address s &&& 0xfffffffc)] ∧
        (op_lwl E s).is_load = true ∧ (op_lwl E s).load_index = decode_rt s ∧
        (decode_rt s ≠ 0 → (op_lwl E s).regs.gp (decode_rt s) =
          lwl_merge (effective_address s &&& 3)
            (read_data E bus_width_t.BUS_WIDTH_WORD (effective_address s &&& 0xfffffffc) s).1
            (s.regs.gp (decode_rt s)))) ∧
      (op_lwr E s =
          set_rt_load
            (lwr_merge (effective_address s &&& 3)
              (read_data E bus_width_t.BUS_WIDTH_WORD (effective_address s &&& 0xfffffffc) s).1
              (get_register_forwarded s (decode_rt s)))
            (read_data E bus_width_t.BUS_WIDTH_WORD (effective_address s &&& 0xfffffffc) s).2 ∧
        (op_lwr E s).raised = s.raised ∧
        (op_lwr E s).accesses = s.accesses ++
          [bus_access.read bus_width_t.BUS_WIDTH_WORD (effective_address s &&& 0xfffffffc)] ∧
        (op_lwr E s).is_load = true ∧ (op_lwr E s).load_index = decode_rt s ∧
        (decode_rt s ≠ 0 → (op_lwr E s).regs.gp (decode_rt s) =
          lwr_merge (effective_address s &&& 3)
            (read_data E bus_width_t.BUS_WIDTH_WORD (effective_address s &&& 0xfffffffc) s).1
            (s.regs.gp (decode_rt s)))) ∧
      (∀ w r : Nat, lwl_merge 2 w r = (w <<< 8) % 2 ^ 32 ||| (r &&& 0xff)) := by
  refine ⟨⟨op_lwl_eq E s, ?_, ?_, ?_, ?_, fun ht => ?_⟩,
    ⟨op_lwr_eq E s, ?_, ?_, ?_, ?_, fun ht => ?_⟩, fun _ _ => rfl⟩
  · rw [op_lwl_eq]; rfl
  · rw [op_lwl_eq]; rfl
  · rw [op_lwl_eq]; rfl
  · rw [op_lwl_eq]; rfl
  · rw [op_lwl_eq]
    exact set_rt_load_gp _
      (read_data E bus_width_t.BUS_WIDTH_WORD (effective_address s &&& 0xfffffffc) s).2 ht
  · rw [op_lwr_eq]; rfl
  · rw [op_lwr_eq]; rfl
  · rw [op_lwr_eq]; rfl
  · rw [op_lwr_eq]; rfl
  · rw [op_lwr_eq]
    exact set_rt_load_gp _
      (read_data E bus_width_t.BUS_WIDTH_WORD (effective_address s &&& 0xfffffffc) s).2 ht

theorem op_lwl_op_lwr_merge_witness :
    decode_rt (memory_state 0x102 0xaabbccdd) ≠ 0 ∧
      (op_lwl memory_bus (memory_state 0x102 0xaabbccdd)).regs.gp
          (decode_rt (memory_state 0x102 0xaabbccdd)) = 0x223344dd ∧
      (op_lwr memory_bus (memory_state 0x102 0xaabbccdd)).regs.gp
          (decode_rt (memory_state 0x102 0xaabbccdd)) = 0xaabb1122 :=
  ⟨by decide,
    ((op_lwl_op_lwr_merge memory_bus (memory_state 0x102 0xaabbccdd)).1.2.2.2.2.2
      (by decide)).trans (by decide),
    ((op_lwl_op_lwr_merge memory_bus (memory_state 0x102 0xaabbccdd)).2.1.2.2.2.2.2
      (by decide)).trans (by decide)⟩

/-! ## BEQ / BNE -/

/-- C11: when `get(rs) = get(rt)`, `op_beq` sets
`next_pc = pc + (sign-extended immediate << 2)` modulo `2^32` and sets
`is_branch`, leaving `pc` and every general-purpose register unchanged; when the
operands differ it changes nothing at all.  `op_bne` does the same with the
condition negated. -/
theorem op_beq_op_bne_spec (s : core β) :
    (get_rs s = get_rt s →
        ((op_beq s).regs.next_pc = (s.regs.pc + (decode_iconst s <<< 2) % 2 ^ 32) % 2 ^ 32 ∧
            (op_beq s).is_branch = true ∧ (op_beq s).regs.pc = s.regs.pc ∧
            (op_beq s).regs.gp = s.regs.gp) ∧
          op_bne s = s) ∧
      (get_rs s ≠ get_rt s →
        op_beq s = s ∧
          ((op_bne s).regs.next_pc = (s.regs.pc + (decode_iconst s <<< 2) % 2 ^ 32) % 2 ^ 32 ∧
            (op_bne s).is_branch = true ∧ (op_bne s).regs.pc = s.regs.pc ∧
            (op_bne s).regs.gp = s.regs.gp)) := by
  constructor
  · intro h
    have e1 : op_beq s = { s with
        regs := { s.regs with
          next_pc := (s.regs.pc + (decode_iconst s <<< 2) % 2 ^ 32) % 2 ^ 32 }
        is_branch := true } := by
      unfold op_beq
      exact if_pos h
    have e2 : op_bne s = s := by
      unfold op_bne
      exact if_neg (not_not.mpr h)
    rw [e1]
    exact ⟨⟨rfl, rfl, rfl, rfl⟩, e2⟩
  · intro h
    have e1 : op_beq s = s := by
      unfold op_beq
      exact if_neg h
    have e2 : op_bne s = { s with
        regs := { s.regs with
          next_pc := (s.regs.pc + (decode_iconst s <<< 2) % 2 ^ 32) % 2 ^ 32 }
        is_branch := true } := by
      unfold op_bne
      exact if_pos h
    rw [e2]
    exact ⟨e1, rfl, rfl, rfl, rfl⟩

theorem op_beq_op_bne_spec_witness :
    (get_rs (branch_state 7 7) = get_rt (branch_state 7 7) ∧
        (op_beq (branch_state 7 7)).regs.next_pc = 0x80010ff4 ∧
        (op_beq (branch_state 7 7)).is_branch = true ∧
        op_bne (branch_state 7 7) = branch_state 7 7) ∧
      (get_rs (branch_state 7 8) ≠ get_rt (branch_state 7 8) ∧
        op_beq (branch_state 7 8) = branch_state 7 8 ∧
        (op_bne (branch_state 7 8)).regs.next_pc = 0x80010ff4) :=
  ⟨⟨by decide, ((op_beq_op_bne_spec (branch_state 7 7)).1 (by decide)).1.1.trans (by decide),
      ((op_beq_op_bne_spec (branch_state 7 7)).1 (by decide)).1.2.1,
      ((op_beq_op_bne_spec (branch_state 7 7)).1 (by decide)).2⟩,
    ⟨by decide, ((op_beq_op_bne_spec (branch_state 7 8)).2 (by decide)).1,
      ((op_beq_op_bne_spec (branch_state 7 8)).2 (by decide)).2.1.trans (by decide)⟩⟩

/-! ## End-to-end scenario -/

theorem memory_bus_word_memory : word_memory memory_bus := by
  intro b a d
  simp [memory_bus]

theorem get_register_no_delay (s : core β) (j : Nat) (h : s.is_load_delay_slot = false) :
    get_register s j = s.regs.gp j :=
  get_register_of_not_pending s j (Or.inl h)

theorem decode_rs_step_boundary (c : Nat) (s : core β) :
    decode_rs (step_boundary c s) = (c >>> 21) &&& 31 :=
  rfl

theorem decode_rt_step_boundary (c : Nat) (s : core β) :
    decode_rt (step_boundary c s) = (c >>> 16) &&& 31 :=
  rfl

theorem decode_iconst_step_boundary (c : Nat) (s : core β) :
    decode_iconst (step_boundary c s) =
      if c &&& 0x8000 = 0 then c &&& 0xffff else (c &&& 0xffff) + 0xffff0000 :=
  rfl

theorem op_addiu_gp (s : core β) (rs rt imm : Nat) (h1 : decode_rs s = rs)
    (h2 : decode_rt s = rt) (h3 : decode_iconst s = imm) (hd : s.is_load_delay_slot = false) :
    (op_addiu s).regs.gp = write_gp s.regs.gp rt ((s.regs.gp rs + imm) % 2 ^ 32) := by
  show write_gp s.regs.gp (decode_rt s) ((get_rs s + decode_iconst s) % 2 ^ 32) = _
  unfold get_rs
  rw [h1, h2, h3, get_register_no_delay s rs hd]

/-- C12: from a state with no pending load and `gp[0] = 0` in which
`ADDIU r1, r0, 5` is the current instruction, running the handlers of
`ADDIU r1, r0, 5`, `ADDIU r2, r1, 10` and `SW r2, 0(r0)` against a bus that is a
memory raises no exception, leaves `gp[1] = 5` and `gp[2] = 15`, issues a single
bus call, the word write of 15 to address 0, and a subsequent word read of
address 0 returns 15. -/
theorem addiu_addiu_sw_stores_15 (E : collaborators β) (s : core β) (hE : word_memory E)
    (hc : s.code = 0x24010005) (h0 : s.regs.gp 0 = 0) (hl : s.is_load = false)
    (hd : s.is_load_delay_slot = false) :
    (addiu_addiu_sw E s).raised = s.raised ∧
      (addiu_addiu_sw E s).regs.gp 1 = 5 ∧ (addiu_addiu_sw E s).regs.gp 2 = 15 ∧
      (addiu_addiu_sw E s).accesses =
        s.accesses ++ [bus_access.write bus_width_t.BUS_WIDTH_WORD 0 15] ∧
      (read_data E bus_width_t.BUS_WIDTH_WORD 0 (addiu_addiu_sw E s)).1 = 15 := by
  -- `ADDIU r1, r0, 5`
  have a1 : (op_addiu s).regs.gp = write_gp s.regs.gp 1 5 := by
    rw [op_addiu_gp s 0 1 5 (by unfold decode_rs; rw [hc]; decide)
      (by unfold decode_rt; rw [hc]; decide) (by unfold decode_iconst; rw [hc]; decide) hd, h0]
    rfl
  -- `ADDIU r2, r1, 10`
  have a2 : (op_addiu (step_boundary 0x2422000a (op_addiu s))).regs.gp =
      write_gp (write_gp s.regs.gp 1 5) 2 15 := by
    rw [op_addiu_gp (step_boundary 0x2422000a (op_addiu s)) 1 2 10
      ((decode_rs_step_boundary _ _).trans (by decide))
      ((decode_rt_step_boundary _ _).trans (by decide))
      ((decode_iconst_step_boundary _ _).trans (by decide)) hl]
    show write_gp (op_addiu s).regs.gp 2 (((op_addiu s).regs.gp 1 + 10) % 2 ^ 32) = _
    rw [a1, write_gp_self _ _ _ (by decide)]
    rfl
  have g1 : (write_gp (write_gp s.regs.gp 1 5) 2 15) 1 = 5 := by
    rw [write_gp_other _ _ _ _ (by decide) (by decide), write_gp_self _ _ _ (by decide)]
  have g2 : (write_gp (write_gp s.regs.gp 1 5) 2 15) 2 = 15 := write_gp_self _ _ _ (by decide)
  have g0 : (write_gp (write_gp s.regs.gp 1 5) 2 15) 0 = 0 := write_gp_zero _ _ _
  -- `SW r2, 0(r0)`
  have d3 : (step_boundary 0xac020000
      (op_addiu (step_boundary 0x2422000a (op_addiu s)))).is_load_delay_slot = false := rfl
  have ea : effective_address (step_boundary 0xac020000
      (op_addiu (step_boundary 0x2422000a (op_addiu s)))) = 0 := by
    unfold effective_address get_rs
    rw [get_register_no_delay _ _ d3, decode_rs_step_boundary, decode_iconst_step_boundary]
    have hr : (0xac020000 >>> 21 &&& 31 : Nat) = 0 := by decide
    have hi : (if (0xac020000 : Nat) &&& 0x8000 = 0 then (0xac020000 : Nat) &&& 0xffff
        else (0xac020000 &&& 0xffff) + 0xffff0000) = 0 := by decide
    rw [hr, hi]
    show ((op_addiu (step_boundary 0x2422000a (op_addiu s))).regs.gp 0 + 0) % 2 ^ 32 = 0
    rw [a2, g0]
    rfl
  have er : get_rt (step_boundary 0xac020000
      (op_addiu (step_boundary 0x2422000a (op_addiu s)))) = 15 := by
    unfold get_rt
    rw [get_register_no_delay _ _ d3, decode_rt_step_boundary]
    have hr : (0xac020000 >>> 16 &&& 31 : Nat) = 2 := by decide
    rw [hr]
    show (op_addiu (step_boundary 0x2422000a (op_addiu s))).regs.gp 2 = 15
    rw [a2, g2]
  have e : addiu_addiu_sw E s = write_data E bus_width_t.BUS_WIDTH_WORD 0 15
      (step_boundary 0xac020000 (op_addiu (step_boundary 0x2422000a (op_addiu s)))) := by
    unfold addiu_addiu_sw
    rw [op_sw_aligned E _ (by rw [ea]; rfl), ea, er]
  rw [e]
  refine ⟨rfl, ?_, ?_, rfl, ?_⟩
  · show (op_addiu (step_boundary 0x2422000a (op_addiu s))).regs.gp 1 = 5
    rw [a2, g1]
  · show (op_addiu (step_boundary 0x2422000a (op_addiu s))).regs.gp 2 = 15
    rw [a2, g2]
  · show (E.read_data (E.write_data _ bus_width_t.BUS_WIDTH_WORD 0 15)
      bus_width_t.BUS_WIDTH_WORD 0).1 % 2 ^ 32 = 15
    rw [hE]
    rfl

theorem addiu_addiu_sw_stores_15_witness :
    word_memory memory_bus ∧ (core_of 0x24010005 (fun _ => 0)).code = 0x24010005 ∧
      (core_of 0x24010005 (fun _ => 0)).regs.gp 0 = 0 ∧
      (core_of 0x24010005 (fun _ => 0)).is_load = false ∧
      (core_of 0x24010005 (fun _ => 0)).is_load_delay_slot = false ∧
      (addiu_addiu_sw memory_bus (core_of 0x24010005 (fun _ => 0))).regs.gp 2 = 15 ∧
      (read_data memory_bus bus_width_t.BUS_WIDTH_WORD 0
        (addiu_addiu_sw memory_bus (core_of 0x24010005 (fun _ => 0)))).1 = 15 :=
  ⟨memory_bus_word_memory, rfl, rfl, rfl, rfl,
    (addiu_addiu_sw_stores_15 memory_bus (core_of 0x24010005 (fun _ => 0))
      memory_bus_word_memory rfl rfl rfl rfl).2.2.1,
    (addiu_addiu_sw_stores_15 memory_bus (core_of 0x24010005 (fun _ => 0))
      memory_bus_word_memory rfl rfl rfl rfl).2.2.2.2⟩

/-! ## BLTZ / BGEZ / BLTZAL / BGEZAL -/

/-- C13 as stated fails: for `BLTZAL r31` with `r31 = 0x80000000` and
`next_pc = 0x1004`, `op_bxx` links (`gp[31] = 0x1004`) and takes the branch,
because the condition was computed from the old, negative `r31`; on the register
file after the link write `r31` is not negative, and the link-first ordering
does not branch. -/
theorem op_bxx_tests_before_link :
    bltzal_r31_state.code &&& 0x1e0000 = 0x100000 ∧ decode_rs bltzal_r31_state = 31 ∧
      (op_bxx bltzal_r31_state).regs.gp 31 = 0x1004 ∧
      ¬ toInt32 ((op_bxx bltzal_r31_state).regs.gp 31) < 0 ∧
      (op_bxx bltzal_r31_state).is_branch = true ∧
      (op_bxx bltzal_r31_state).regs.next_pc = 0x1010 ∧
      (op_bxx_link_first bltzal_r31_state).is_branch = false ∧
      (op_bxx_link_first bltzal_r31_state).regs.next_pc = 0x1004 := by
  decide

theorem op_bxx_eq (s : core β) :
    op_bxx s =
      if bxx_condition s then
        { (if s.code &&& 0x1e0000 = 0x100000 then
            { s with regs := { s.regs with gp := Function.update s.regs.gp 31 s.regs.next_pc } }
          else s) with
          regs := { (if s.code &&& 0x1e0000 = 0x100000 then
                { s with
                  regs := { s.regs with gp := Function.update s.regs.gp 31 s.regs.next_pc } }
              else s).regs with
            next_pc := (s.regs.pc + (decode_iconst s <<< 2) % 2 ^ 32) % 2 ^ 32 }
          is_branch := true }
      else
        (if s.code &&& 0x1e0000 = 0x100000 then
          { s with regs := { s.regs with gp := Function.update s.regs.gp 31 s.regs.next_pc } }
        else s) := by
  unfold op_bxx bxx_condition
  by_cases hl : s.code &&& 0x1e0000 = 0x100000
  · simp only [hl, if_true]
    rfl
  · simp only [hl, if_false]

/-- C13, as the code has it: `op_bxx` evaluates the branch condition first, on
`get_rs()` of the register file as it stands before any link write.  For the
linking forms (`code & 0x1e0000 = 0x100000`) `gp[31]` then receives `next_pc`
whether or not the branch is taken, and no other register changes; the
non-linking forms leave every register unchanged.  The branch is taken
(`next_pc = pc + (immediate << 2)`, `is_branch` set) exactly when that
condition holds; otherwise `next_pc` and `is_branch` are unchanged. -/
theorem op_bxx_condition_then_link (s : core β) :
    (s.code &&& 0x1e0000 = 0x100000 →
        (op_bxx s).regs.gp = Function.update s.regs.gp 31 s.regs.next_pc) ∧
      (s.code &&& 0x1e0000 ≠ 0x100000 → (op_bxx s).regs.gp = s.regs.gp) ∧
      (bxx_condition s = true →
        (op_bxx s).regs.next_pc = (s.regs.pc + (decode_iconst s <<< 2) % 2 ^ 32) % 2 ^ 32 ∧
          (op_bxx s).is_branch = true) ∧
      (bxx_condition s = false →
        (op_bxx s).regs.next_pc = s.regs.next_pc ∧ (op_bxx s).is_branch = s.is_branch) ∧
      (op_bxx s).regs.pc = s.regs.pc := by
  rw [op_bxx_eq]
  by_cases hc : bxx_condition s = true <;> by_cases hl : s.code &&& 0x1e0000 = 0x100000
  · simp [hc, hl]
  · simp [hc, hl]
  · simp [hc, hl]
  · simp [hc, hl]

theorem op_bxx_condition_then_link_witness :
    (bltzal_r31_state.code &&& 0x1e0000 = 0x100000 ∧ bxx_condition bltzal_r31_state = true ∧
        (op_bxx bltzal_r31_state).regs.gp 31 = bltzal_r31_state.regs.next_pc ∧
        (op_bxx bltzal_r31_state).is_branch = true) ∧
      (bgez_state.code &&& 0x1e0000 ≠ 0x100000 ∧
        (op_bxx bgez_state).regs.gp 31 = bgez_state.regs.gp 31) ∧
      (bxx_condition (operands 5 0) = false ∧
        (op_bxx (operands 5 0)).is_branch = (operands 5 0).is_branch) :=
  ⟨⟨by decide, by decide,
      (congrFun ((op_bxx_condition_then_link bltzal_r31_state).1 (by decide)) 31).trans
        (by decide),
      ((op_bxx_condition_then_link bltzal_r31_state).2.2.1 (by decide)).2⟩,
    ⟨by decide, congrFun ((op_bxx_condition_then_link bgez_state).2.1 (by decide)) 31⟩,
    ⟨by decide, ((op_bxx_condition_then_link (operands 5 0)).2.2.2.1 (by decide)).2⟩⟩

/-! ## J / JAL -/

/-- C14 as stated fails: with `pc = 0x0ffffffc` and `next_pc = 0x10000000`,
`J 0x100` and `JAL 0x100` set `next_pc = 0x00000100`, the jump field combined
with the high four bits of `pc`; combined with the high four bits of the old
`next_pc` the target would be `0x10000100`. -/
theorem op_j_uses_pc_high_bits :
    (op_j (jump_state false)).regs.next_pc = 0x00000100 ∧
      (op_jal (jump_state true)).regs.next_pc = 0x00000100 ∧
      ((jump_state false).regs.next_pc &&& 0xf0000000) |||
          (((jump_state false).code <<< 2) % 2 ^ 32 &&& 0x0ffffffc) = 0x10000100 ∧
      ((jump_state true).regs.next_pc &&& 0xf0000000) |||
          (((jump_state true).code <<< 2) % 2 ^ 32 &&& 0x0ffffffc) = 0x10000100 := by
  decide

/-- C14, as the code has it: for every instruction word and every state, `op_j`
and `op_jal` set `next_pc` to `(pc & 0xf0000000) | ((code << 2) & 0x0ffffffc)`,
the jump field shifted left 2 combined with the high four bits of `regs.pc`,
and set `is_branch`; `op_jal` additionally stores the old `next_pc` in `gp[31]`
and changes no other register, `op_j` changes no register, and neither changes
`pc`. -/
theorem op_j_op_jal_target (s : core β) :
    ((op_j s).regs.next_pc =
          (s.regs.pc &&& 0xf0000000) ||| ((s.code <<< 2) % 2 ^ 32 &&& 0x0ffffffc) ∧
        (op_j s).is_branch = true ∧ (op_j s).regs.gp = s.regs.gp ∧
        (op_j s).regs.pc = s.regs.pc) ∧
      ((op_jal s).regs.next_pc =
          (s.regs.pc &&& 0xf0000000) ||| ((s.code <<< 2) % 2 ^ 32 &&& 0x0ffffffc) ∧
        (op_jal s).is_branch = true ∧ (op_jal s).regs.gp 31 = s.regs.next_pc ∧
        (∀ j, j ≠ 31 → (op_jal s).regs.gp j = s.regs.gp j) ∧
        (op_jal s).regs.pc = s.regs.pc) := by
  refine ⟨⟨rfl, rfl, rfl, rfl⟩, ⟨rfl, rfl, ?_, ?_, rfl⟩⟩
  · show Function.update s.regs.gp 31 s.regs.next_pc 31 = s.regs.next_pc
    exact Function.update_same _ _ _
  · intro j hj
    show Function.update s.regs.gp 31 s.regs.next_pc j = s.regs.gp j
    exact Function.update_noteq hj _ _

theorem op_j_op_jal_target_witness :
    (0 : Nat) ≠ 31 ∧ (op_jal (jump_state true)).regs.gp 0 = (jump_state true).regs.gp 0 :=
  ⟨by decide, (op_j_op_jal_target (jump_state true)).2.2.2.2.1 0 (by decide)⟩

/-! ## Back-to-back loads -/

/-- C15: `set_rt_load(v2)` on a target `t != 0`.  If an earlier load to `t` is
in its delay window (`is_load_delay_slot` and `load_index = t`), `load_value`
is the same after the call as before it; if not, `load_value` becomes the
previous `gp[t]`.  In both cases `gp[t] = v2`, `load_index = t`, `is_load` is
set, and no register other than `gp[t]` and `gp[0]` changes. -/
theorem set_rt_load_over_pending (v2 : Nat) (s : core β) (ht : decode_rt s ≠ 0) :
    (s.is_load_delay_slot = true ∧ s.load_index = decode_rt s →
        (set_rt_load v2 s).load_value = s.load_value) ∧
      (¬ (s.is_load_delay_slot = true ∧ s.load_index = decode_rt s) →
        (set_rt_load v2 s).load_value = s.regs.gp (decode_rt s)) ∧
      (set_rt_load v2 s).regs.gp (decode_rt s) = v2 ∧
      (set_rt_load v2 s).load_index = decode_rt s ∧ (set_rt_load v2 s).is_load = true ∧
      ∀ j, j ≠ decode_rt s → j ≠ 0 → (set_rt_load v2 s).regs.gp j = s.regs.gp j := by
  refine ⟨fun h => ?_, fun h => ?_, set_rt_load_gp v2 s ht, rfl, rfl, fun j hj h0 => ?_⟩
  · rw [set_rt_load_load_value, get_register_of_pending s _ h.1 h.2]
  · rw [set_rt_load_load_value]
    apply get_register_of_not_pending
    by_cases hd : s.is_load_delay_slot = true
    · exact Or.inr fun hi => h ⟨hd, hi⟩
    · exact Or.inl (by simpa using hd)
  · simp only [set_rt_load]
    rw [write_gp_other _ _ _ _ hj h0]
    split_ifs
    · exact Function.update_noteq hj _ _
    · rfl

theorem set_rt_load_over_pending_witness :
    decode_rt (step_boundary 0x8c010000 (set_rt_load 7 load_state)) ≠ 0 ∧
      ((step_boundary 0x8c010000 (set_rt_load 7 load_state)).is_load_delay_slot = true ∧
        (step_boundary 0x8c010000 (set_rt_load 7 load_state)).load_index =
          decode_rt (step_boundary 0x8c010000 (set_rt_load 7 load_state))) ∧
      (set_rt_load 9 (step_boundary 0x8c010000 (set_rt_load 7 load_state))).load_value =
        (step_boundary 0x8c010000 (set_rt_load 7 load_state)).load_value ∧
      ¬ (load_state.is_load_delay_slot = true ∧ load_state.load_index = decode_rt load_state) ∧
      (set_rt_load 9 load_state).load_value = load_state.regs.gp (decode_rt load_state) ∧
      ((2 : Nat) ≠ decode_rt load_state ∧ (2 : Nat) ≠ 0 ∧
        (set_rt_load 9 load_state).regs.gp 2 = load_state.regs.gp 2) :=
  ⟨by decide, by decide,
    (set_rt_load_over_pending 9 (step_boundary 0x8c010000 (set_rt_load 7 load_state))
      (by decide)).1 (by decide),
    by decide, (set_rt_load_over_pending 9 load_state (by decide)).2.1 (by decide),
    by decide, by decide,
    (set_rt_load_over_pending 9 load_state (by decide)).2.2.2.2.2 2 (by decide) (by decide)⟩

/-! ## Ordinary signed division -/

theorem neg_tmod_eq (a b : Int) : (-a).tmod b = -(a.tmod b) := by
  rw [Int.tmod_def, Int.tmod_def, Int.neg_tdiv, Int.mul_neg]
  omega

theorem tmod_nonneg_lt (a b : Int) (ha : 0 ≤ a) (hb : b ≠ 0) :
    0 ≤ a.tmod b ∧ a.tmod b < b.natAbs := by
  refine ⟨Int.tmod_nonneg b ha, ?_⟩
  rcases Int.lt_or_gt_of_ne hb with h | h
  · have h1 := Int.tmod_lt_of_pos a (show 0 < -b by omega)
    rw [Int.tmod_neg] at h1
    omega
  · have h1 := Int.tmod_lt_of_pos a h
    omega

theorem tmod_sign_bound (a b : Int) (hb : b ≠ 0) :
    (a.tmod b).natAbs < b.natAbs ∧ (0 ≤ a → 0 ≤ a.tmod b) ∧ (a ≤ 0 → a.tmod b ≤ 0) := by
  by_cases ha : 0 ≤ a
  · have h := tmod_nonneg_lt a b ha hb
    refine ⟨by omega, fun _ => h.1, fun h0 => ?_⟩
    have : a = 0 := by omega
    subst this
    simp
  · have h := tmod_nonneg_lt (-a) b (by omega) hb
    rw [neg_tmod_eq] at h
    refine ⟨by omega, fun h0 => absurd h0 ha, fun _ => by omega⟩

theorem tdiv_int32_bounds (a b : Int) (ha : -2 ^ 31 ≤ a ∧ a < 2 ^ 31) (hb : b ≠ 0)
    (hm : ¬ (a = -2 ^ 31 ∧ b = -1)) : -2 ^ 31 ≤ a.tdiv b ∧ a.tdiv b < 2 ^ 31 := by
  by_cases h1 : b = 1
  · subst h1
    rw [Int.tdiv_one]
    exact ha
  by_cases h2 : b = -1
  · subst h2
    have e : a.tdiv (-1) = -a := by
      rw [Int.tdiv_neg, Int.tdiv_one]
    rw [e]
    have : a ≠ -2 ^ 31 := fun h => hm ⟨h, rfl⟩
    omega
  · have hq : (a.tdiv b).natAbs = a.natAbs / b.natAbs := Int.natAbs_tdiv a b
    have hb2 : 2 ≤ b.natAbs := by omega
    have hle : a.natAbs / b.natAbs ≤ a.natAbs / 2 := Nat.div_le_div_left hb2 (by decide)
    omega

theorem toInt32_toUInt32 (i : Int) (h : -2 ^ 31 ≤ i ∧ i < 2 ^ 31) : toInt32 (toUInt32 i) = i := by
  unfold toInt32 toUInt32
  split_ifs <;> omega

theorem op_div_ordinary (s : core β) (hv : toInt32 (get_rt s) ≠ 0)
    (hm : ¬ (toInt32 (get_rs s) = -2 ^ 31 ∧ toInt32 (get_rt s) = -1)) :
    op_div s = { s with regs := { s.regs with
      lo := toUInt32 (Int.tdiv (toInt32 (get_rs s)) (toInt32 (get_rt s)))
      hi := toUInt32 (Int.tmod (toInt32 (get_rs s)) (toInt32 (get_rt s))) } } := by
  have e1 : toInt32 0x80000000 = -2 ^ 31 := by decide
  have e2 : toInt32 0xffffffff = -1 := by decide
  unfold op_div
  simp only [e1, e2]
  rw [if_neg hm, if_neg (fun h => hv h.2), if_neg (fun h => hv h.2)]

/-- C16: for a divisor whose signed reading is not 0 and operands other than
`(0x80000000, 0xffffffff)`, `op_div` sets `lo` and `hi` to the truncating signed
quotient `q` and remainder `r` of the signed readings: `dividend = q * divisor + r`,
`|r| < |divisor|`, `r` is zero or has the sign of the dividend, and `q` is the
quotient rounded toward zero (`|q| = |dividend| / |divisor|`). -/
theorem op_div_truncating (s : core β) (hv : toInt32 (get_rt s) ≠ 0)
    (hm : ¬ (toInt32 (get_rs s) = -2 ^ 31 ∧ toInt32 (get_rt s) = -1)) :
    toInt32 (op_div s).regs.lo = Int.tdiv (toInt32 (get_rs s)) (toInt32 (get_rt s)) ∧
      toInt32 (op_div s).regs.hi = Int.tmod (toInt32 (get_rs s)) (toInt32 (get_rt s)) ∧
      toInt32 (get_rs s) =
        toInt32 (op_div s).regs.lo * toInt32 (get_rt s) + toInt32 (op_div s).regs.hi ∧
      (toInt32 (op_div s).regs.hi).natAbs < (toInt32 (get_rt s)).natAbs ∧
      (0 ≤ toInt32 (get_rs s) → 0 ≤ toInt32 (op_div s).regs.hi) ∧
      (toInt32 (get_rs s) ≤ 0 → toInt32 (op_div s).regs.hi ≤ 0) ∧
      (toInt32 (op_div s).regs.lo).natAbs =
        (toInt32 (get_rs s)).natAbs / (toInt32 (get_rt s)).natAbs ∧
      (op_div s).raised = s.raised := by
  have hr := tmod_sign_bound (toInt32 (get_rs s)) (toInt32 (get_rt s)) hv
  have hq := tdiv_int32_bounds _ _ (toInt32_bounds (get_rs s)) hv hm
  have hb := toInt32_bounds (get_rt s)
  have hlo : toInt32 (op_div s).regs.lo = Int.tdiv (toInt32 (get_rs s)) (toInt32 (get_rt s)) := by
    rw [op_div_ordinary s hv hm]
    exact toInt32_toUInt32 _ hq
  have hhi : toInt32 (op_div s).regs.hi = Int.tmod (toInt32 (get_rs s)) (toInt32 (get_rt s)) := by
    rw [op_div_ordinary s hv hm]
    exact toInt32_toUInt32 _ (by omega)
  rw [hlo, hhi]
  exact ⟨rfl, rfl, (Int.tdiv_add_tmod' _ _).symm, hr.1, hr.2.1, hr.2.2, Int.natAbs_tdiv _ _,
    op_div_raised s⟩

theorem op_div_truncating_witness :
    toInt32 (get_rt (operands 0xfffffff9 2)) ≠ 0 ∧
      ¬ (toInt32 (get_rs (operands 0xfffffff9 2)) = -2 ^ 31 ∧
        toInt32 (get_rt (operands 0xfffffff9 2)) = -1) ∧
      toInt32 (op_div (operands 0xfffffff9 2)).regs.lo = -3 ∧
      toInt32 (op_div (operands 0xfffffff9 2)).regs.hi = -1 :=
  ⟨by decide, by decide,
    (op_div_truncating (operands 0xfffffff9 2) (by decide) (by decide)).1.trans (by decide),
    (op_div_truncating (operands 0xfffffff9 2) (by decide) (by decide)).2.1.trans (by decide)⟩

/-! ## SWL / SWR -/

theorem swl_switch (k w r : Nat) (hk : k = 0 ∨ k = 1 ∨ k = 2 ∨ k = 3) :
    (if k = 1 then (w &&& 0xffff0000) ||| (r >>> 16)
      else if k = 2 then (w &&& 0xff000000) ||| (r >>> 8)
      else if k = 3 then (w &&& 0x00000000) ||| (r >>> 0)
      else (w &&& 0xffffff00) ||| (r >>> 24)) = swl_merge k w r := by
  rcases hk with h | h | h | h <;> subst h <;> rfl

theorem swr_switch (k w r : Nat) (hk : k = 0 ∨ k = 1 ∨ k = 2 ∨ k = 3) :
    (if k = 1 then (w &&& 0x000000ff) ||| (r <<< 8) % 2 ^ 32
      else if k = 2 then (w &&& 0x0000ffff) ||| (r <<< 16) % 2 ^ 32
      else if k = 3 then (w &&& 0x00ffffff) ||| (r <<< 24) % 2 ^ 32
      else (w &&& 0x00000000) ||| (r <<< 0) % 2 ^ 32) = swr_merge k w r := by
  rcases hk with h | h | h | h <;> subst h <;> rfl

theorem op_swl_eq (E : collaborators β) (s : core β) :
    op_swl E s =
      write_data E bus_width_t.BUS_WIDTH_WORD (effective_address s &&& 0xfffffffc)
        (swl_merge (effective_address s &&& 3)
          (read_data E bus_width_t.BUS_WIDTH_WORD (effective_address s &&& 0xfffffffc) s).1
          (get_rt s))
        (read_data E bus_width_t.BUS_WIDTH_WORD (effective_address s &&& 0xfffffffc) s).2 := by
  rw [← swl_switch _ _ _ (and_three_cases (effective_address s)), ← not32_three]
  rfl

theorem op_swr_eq (E : collaborators β) (s : core β) :
    op_swr E s =
      write_data E bus_width_t.BUS_WIDTH_WORD (effective_address s &&& 0xfffffffc)
        (swr_merge (effective_address s &&& 3)
          (read_data E bus_width_t.BUS_WIDTH_WORD (effective_address s &&& 0xfffffffc) s).1
          (get_rt s))
        (read_data E bus_width_t.BUS_WIDTH_WORD (effective_address s &&& 0xfffffffc) s).2 := by
  rw [← swr_switch _ _ _ (and_three_cases (effective_address s)), ← not32_three]
  rfl

/-- C18 as stated fails: in the delay slot of a load into `r2`, with
`gp[2] = 0x55667788` and `load_value = 0xaabbccdd`, `op_swl` at offset 0 of the
word `0x11223344` writes `0x112233aa` and `op_swr` at offset 3 writes
`0xdd223344`: both merge the value returned by `get_rt()`, which is `load_value`.
Merging `gp[rt]`, the value of `get_register_forwarded`, would give `0x11223355`
and `0x88223344`. -/
theorem op_swl_op_swr_read_get_rt :
    get_rt (store_in_delay_slot 0x100) = 0xaabbccdd ∧
      get_register_forwarded (store_in_delay_slot 0x100) 2 = 0x55667788 ∧
      (op_swl memory_bus (store_in_delay_slot 0x100)).accesses =
        [bus_access.read bus_width_t.BUS_WIDTH_WORD 0x100,
          bus_access.write bus_width_t.BUS_WIDTH_WORD 0x100 0x112233aa] ∧
      swl_merge 0 0x11223344 (get_register_forwarded (store_in_delay_slot 0x100) 2) =
        0x11223355 ∧
      (op_swr memory_bus (store_in_delay_slot 0x103)).accesses =
        [bus_access.read bus_width_t.BUS_WIDTH_WORD 0x100,
          bus_access.write bus_width_t.BUS_WIDTH_WORD 0x100 0xdd223344] ∧
      swr_merge 3 0x11223344 (get_register_forwarded (store_in_delay_slot 0x103) 2) =
        0x88223344 := by
  decide

/-- C18, as the code has it: for `k = a & 3` and bus word `w` read at `a & ~3`,
`op_swl` writes `(w & ~(2^(8(k+1)) - 1)) | (x >> (24 - 8k))` and `op_swr` writes
`(w & (2^(8k) - 1)) | (x << 8k)` to `a & ~3`, where `x` is the value returned by
`get_rt()`: `load_value` when a load into `rt` is in its delay window and
`gp[rt]` otherwise.  Each handler issues the word read and then the word write
and never calls `enter_exception`. -/
theorem op_swl_op_swr_merge (E : collaborators β) (s : core β) :
    (op_swl E s =
          write_data E bus_width_t.BUS_WIDTH_WORD (effective_address s &&& 0xfffffffc)
            (swl_merge (effective_address s &&& 3)
              (read_data E bus_width_t.BUS_WIDTH_WORD (effective_address s &&& 0xfffffffc) s).1
              (get_rt s))
            (read_data E bus_width_t.BUS_WIDTH_WORD (effective_address s &&& 0xfffffffc) s).2 ∧
        (op_swl E s).raised = s.raised ∧
        (op_swl E s).accesses = s.accesses ++
          [bus_access.read bus_width_t.BUS_WIDTH_WORD (effective_address s &&& 0xfffffffc),
            bus_access.write bus_width_t.BUS_WIDTH_WORD (effective_address s &&& 0xfffffffc)
              (swl_merge (effective_address s &&& 3)
                (read_data E bus_width_t.BUS_WIDTH_WORD
                  (effective_address s &&& 0xfffffffc) s).1
                (get_rt s))]) ∧
      (op_swr E s =
          write_data E bus_width_t.BUS_WIDTH_WORD (effective_address s &&& 0xfffffffc)
            (swr_merge (effective_address s &&& 3)
              (read_data E bus_width_t.BUS_WIDTH_WORD (effective_address s &&& 0xfffffffc) s).1
              (get_rt s))
            (read_data E bus_width_t.BUS_WIDTH_WORD (effective_address s &&& 0xfffffffc) s).2 ∧
        (op_swr E s).raised = s.raised ∧
        (op_swr E s).accesses = s.accesses ++
          [bus_access.read bus_width_t.BUS_WIDTH_WORD (effective_address s &&& 0xfffffffc),
            bus_access.write bus_width_t.BUS_WIDTH_WORD (effective_address s &&& 0xfffffffc)
              (swr_merge (effective_address s &&& 3)
                (read_data E bus_width_t.BUS_WIDTH_WORD
                  (effective_address s &&& 0xfffffffc) s).1
                (get_rt s))]) ∧
      (s.is_load_delay_slot = true ∧ s.load_index = decode_rt s → get_rt s = s.load_value) ∧
      (s.is_load_delay_slot = false ∨ s.load_index ≠ decode_rt s →
        get_rt s = get_register_forwarded s (decode_rt s)) := by
  refine ⟨⟨op_swl_eq E s, ?_, ?_⟩, ⟨op_swr_eq E s, ?_, ?_⟩, fun h => ?_, fun h => ?_⟩
  · rw [op_swl_eq]; rfl
  · rw [op_swl_eq]
    simp [write_data, read_data]
  · rw [op_swr_eq]; rfl
  · rw [op_swr_eq]
    simp [write_data, read_data]
  · exact get_register_of_pending s _ h.1 h.2
  · exact get_register_of_not_pending s _ h

theorem op_swl_op_swr_merge_witness :
    ((store_in_delay_slot 0x100).is_load_delay_slot = true ∧
        (store_in_delay_slot 0x100).load_index = decode_rt (store_in_delay_slot 0x100)) ∧
      get_rt (store_in_delay_slot 0x100) = (store_in_delay_slot 0x100).load_value ∧
      ((memory_state 0x100 9).is_load_delay_slot = false ∨
        (memory_state 0x100 9).load_index ≠ decode_rt (memory_state 0x100 9)) ∧
      get_rt (memory_state 0x100 9) =
        get_register_forwarded (memory_state 0x100 9) (decode_rt (memory_state 0x100 9)) :=
  ⟨by decide, (op_swl_op_swr_merge memory_bus (store_in_delay_slot 0x100)).2.2.1 (by decide),
    by decide, (op_swl_op_swr_merge memory_bus (memory_state 0x100 9)).2.2.2 (by decide)⟩

/-! ## Safety of the native division -/

/-- C19: the native division of `op_div` and `op_divu` is never evaluated
outside its domain.  With `/` and `%` partial (no result for a zero divisor or
for `INT32_MIN / -1`) both handlers still return a state for every input, the
same state as the total handlers; and whenever the first three guards of
`op_div` fail, the divisor is not 0 and the operands are not `(INT32_MIN, -1)`. -/
theorem op_div_op_divu_total (s : core β) :
    op_div_checked s = some (op_div s) ∧ op_divu_checked s = some (op_divu s) ∧
      (¬ (toInt32 (get_rs s) = toInt32 0x80000000 ∧ toInt32 (get_rt s) = toInt32 0xffffffff) →
        ¬ (toInt32 (get_rs s) ≥ 0 ∧ toInt32 (get_rt s) = 0) →
        ¬ (toInt32 (get_rs s) ≤ 0 ∧ toInt32 (get_rt s) = 0) →
        toInt32 (get_rt s) ≠ 0 ∧
          ¬ (toInt32 (get_rs s) = -2 ^ 31 ∧ toInt32 (get_rt s) = -1)) := by
  have e1 : toInt32 0x80000000 = -2 ^ 31 := by decide
  have e2 : toInt32 0xffffffff = -1 := by decide
  have guard : ¬ (toInt32 (get_rs s) = toInt32 0x80000000 ∧
        toInt32 (get_rt s) = toInt32 0xffffffff) →
      ¬ (toInt32 (get_rs s) ≥ 0 ∧ toInt32 (get_rt s) = 0) →
      ¬ (toInt32 (get_rs s) ≤ 0 ∧ toInt32 (get_rt s) = 0) →
      toInt32 (get_rt s) ≠ 0 ∧
        ¬ (toInt32 (get_rs s) = -2 ^ 31 ∧ toInt32 (get_rt s) = -1) := by
    intro h1 h2 h3
    rw [e1, e2] at h1
    refine ⟨fun h0 => ?_, h1⟩
    by_cases hd : toInt32 (get_rs s) ≥ 0
    · exact h2 ⟨hd, h0⟩
    · exact h3 ⟨by omega, h0⟩
  refine ⟨?_, ?_, guard⟩
  · unfold op_div_checked op_div
    simp only
    by_cases h1 : toInt32 (get_rs s) = toInt32 0x80000000 ∧
        toInt32 (get_rt s) = toInt32 0xffffffff
    · rw [if_pos h1, if_pos h1]
    · by_cases h2 : toInt32 (get_rs s) ≥ 0 ∧ toInt32 (get_rt s) = 0
      · rw [if_neg h1, if_neg h1, if_pos h2, if_pos h2]
      · by_cases h3 : toInt32 (get_rs s) ≤ 0 ∧ toInt32 (get_rt s) = 0
        · rw [if_neg h1, if_neg h1, if_neg h2, if_neg h2, if_pos h3, if_pos h3]
        · rw [if_neg h1, if_neg h1, if_neg h2, if_neg h2, if_neg h3, if_neg h3]
          have g := guard h1 h2 h3
          have hn : ¬ (toInt32 (get_rt s) = 0 ∨
              (toInt32 (get_rs s) = -2 ^ 31 ∧ toInt32 (get_rt s) = -1)) := by
            rintro (h | h)
            · exact g.1 h
            · exact g.2 h
          unfold int32_divmod
          rw [if_neg hn]
          rfl
  · unfold op_divu_checked op_divu
    simp only
    by_cases h : get_rt s ≠ 0
    · rw [if_pos h, if_pos h]
      unfold uint32_divmod
      rw [if_neg h]
      rfl
    · rw [if_neg h, if_neg h]

theorem op_div_op_divu_total_witness :
    ¬ (toInt32 (get_rs (operands 0x80000000 0xfffffffe)) = toInt32 0x80000000 ∧
        toInt32 (get_rt (operands 0x80000000 0xfffffffe)) = toInt32 0xffffffff) ∧
      ¬ (toInt32 (get_rs (operands 0x80000000 0xfffffffe)) ≥ 0 ∧
        toInt32 (get_rt (operands 0x80000000 0xfffffffe)) = 0) ∧
      ¬ (toInt32 (get_rs (operands 0x80000000 0xfffffffe)) ≤ 0 ∧
        toInt32 (get_rt (operands 0x80000000 0xfffffffe)) = 0) ∧
      toInt32 (get_rt (operands 0x80000000 0xfffffffe)) ≠ 0 :=
  ⟨by decide, by decide, by decide,
    ((op_div_op_divu_total (operands 0x80000000 0xfffffffe)).2.2 (by decide) (by decide)
      (by decide)).1⟩

/-! ## Round trip of the unaligned store and load -/

theorem mask32_testBit (j : Nat) : (0xffffffff : Nat).testBit j = decide (j < 32) := by
  show (2 ^ 32 - 1 : Nat).testBit j = _
  exact Nat.testBit_two_pow_sub_one 32 j

theorem not32_testBit (x i : Nat) : (not32 x).testBit i = (decide (i < 32) && !x.testBit i) := by
  unfold not32
  rw [Nat.testBit_mod_two_pow, Nat.testBit_xor, mask32_testBit]
  by_cases h : i < 32 <;> simp [h]

theorem testBit_of_lt_32 (x j : Nat) (hx : x < 2 ^ 32) (hj : 32 ≤ j) : x.testBit j = false := by
  apply Nat.testBit_lt_two_pow
  calc x < 2 ^ 32 := hx
    _ ≤ 2 ^ j := Nat.pow_le_pow_right (by decide) hj

theorem swl_lwl_bits (n m r p : Nat) (hn : n ≤ 32) :
    ((((m &&& not32 (2 ^ (32 - n) - 1)) ||| (r >>> n)) % 2 ^ 32) <<< n) % 2 ^ 32 |||
        (p &&& (2 ^ n - 1)) =
      (r &&& not32 (2 ^ n - 1)) ||| (p &&& (2 ^ n - 1)) := by
  apply Nat.eq_of_testBit_eq
  intro i
  simp only [Nat.testBit_or, Nat.testBit_and, Nat.testBit_mod_two_pow, Nat.testBit_shiftLeft,
    Nat.testBit_shiftRight, not32_testBit, Nat.testBit_two_pow_sub_one]
  by_cases h1 : n ≤ i
  · have e : n + (i - n) = i := by omega
    by_cases h2 : i < 32
    · have h3 : i - n < 32 - n := by omega
      have h4 : i - n < 32 := by omega
      have h5 : ¬ i < n := by omega
      simp [e, h1, h2, h3, h4, h5]
    · simp [h2]
  · have h5 : i < n := by omega
    simp [h1, h5]

theorem swl_upper_bits (n m r : Nat) (hn : n ≤ 32) (hm : m < 2 ^ 32) (hr : r < 2 ^ 32) :
    ((m &&& not32 (2 ^ (32 - n) - 1)) ||| (r >>> n)) >>> (32 - n) = m >>> (32 - n) := by
  apply Nat.eq_of_testBit_eq
  intro i
  simp only [Nat.testBit_or, Nat.testBit_and, Nat.testBit_shiftRight, not32_testBit,
    Nat.testBit_two_pow_sub_one]
  have e : r.testBit (n + (32 - n + i)) = false := testBit_of_lt_32 r _ hr (by omega)
  rw [e]
  by_cases h2 : 32 - n + i < 32
  · have h3 : ¬ 32 - n + i < 32 - n := by omega
    simp [h2, h3]
  · have e2 : m.testBit (32 - n + i) = false := testBit_of_lt_32 m _ hm (by omega)
    simp [e2]

theorem swr_lwr_bits (n m r : Nat) :
    (((m &&& (2 ^ n - 1)) ||| (r <<< n) % 2 ^ 32) % 2 ^ 32) >>> n =
      r &&& (0xffffffff >>> n) := by
  apply Nat.eq_of_testBit_eq
  intro i
  simp only [Nat.testBit_or, Nat.testBit_and, Nat.testBit_mod_two_pow, Nat.testBit_shiftLeft,
    Nat.testBit_shiftRight, Nat.testBit_two_pow_sub_one, mask32_testBit]
  have h1 : ¬ n + i < n := by omega
  have h2 : n + i ≥ n := by omega
  have e : n + i - n = i := by omega
  by_cases h3 : n + i < 32 <;> simp [h1, h2, h3, e]

theorem swr_lower_bits (n m r : Nat) :
    ((m &&& (2 ^ n - 1)) ||| (r <<< n) % 2 ^ 32) &&& (2 ^ n - 1) = m &&& (2 ^ n - 1) := by
  apply Nat.eq_of_testBit_eq
  intro i
  simp only [Nat.testBit_or, Nat.testBit_and, Nat.testBit_mod_two_pow, Nat.testBit_shiftLeft,
    Nat.testBit_two_pow_sub_one]
  by_cases h1 : i < n
  · have h2 : ¬ i ≥ n := by omega
    simp [h1, h2]
  · simp [h1]

theorem lwl_after_swl (k m r p : Nat) (hk : k ≤ 3) :
    lwl_merge k (swl_merge k m r % 2 ^ 32) p =
      (r &&& not32 (2 ^ (24 - 8 * k) - 1)) ||| (p &&& (2 ^ (24 - 8 * k) - 1)) := by
  unfold lwl_merge swl_merge
  have e : 8 * (k + 1) = 32 - (24 - 8 * k) := by omega
  rw [e]
  exact swl_lwl_bits (24 - 8 * k) m r p (by omega)

theorem swl_keeps_upper (k m r : Nat) (hk : k ≤ 3) (hm : m < 2 ^ 32) (hr : r < 2 ^ 32) :
    swl_merge k m r >>> (8 * (k + 1)) = m >>> (8 * (k + 1)) := by
  unfold swl_merge
  have e : 8 * (k + 1) = 32 - (24 - 8 * k) := by omega
  rw [e]
  exact swl_upper_bits (24 - 8 * k) m r (by omega) hm hr

theorem lwr_after_swr (k m r p : Nat) :
    lwr_merge k (swr_merge k m r % 2 ^ 32) p =
      (r &&& (0xffffffff >>> (8 * k))) ||| (p &&& not32 (0xffffffff >>> (8 * k))) := by
  unfold lwr_merge swr_merge
  rw [swr_lwr_bits]

theorem swr_keeps_lower (k m r : Nat) :
    swr_merge k m r &&& (2 ^ (8 * k) - 1) = m &&& (2 ^ (8 * k) - 1) := by
  unfold swr_merge
  exact swr_lower_bits (8 * k) m r

theorem read_data_lt (E : collaborators β) (w : bus_width_t) (a : Nat) (s : core β) :
    (read_data E w a s).1 < 2 ^ 32 :=
  Nat.mod_lt _ (by decide)

theorem and_three_le (a : Nat) : a &&& 3 ≤ 3 :=
  Nat.and_le_right

theorem effective_address_after_store (s s1 : core β) (c2 : Nat)
    (hgp : s1.regs.gp = s.regs.gp) (hl1 : s1.is_load = false)
    (hd : s.is_load_delay_slot = false)
    (hrs : decode_rs (step_boundary c2 s) = decode_rs s)
    (him : decode_iconst (step_boundary c2 s) = decode_iconst s) :
    effective_address (step_boundary c2 s1) = effective_address s := by
  unfold effective_address get_rs
  rw [get_register_no_delay (step_boundary c2 s1) _ hl1, get_register_no_delay s _ hd]
  show (s1.regs.gp (decode_rs (step_boundary c2 s)) + decode_iconst (step_boundary c2 s))
    % 2 ^ 32 = _
  rw [hgp, hrs, him]

theorem lwl_reads_swl (E : collaborators β) (s : core β) (c2 : Nat) (hE : word_memory E) :
    (read_data E bus_width_t.BUS_WIDTH_WORD (effective_address s &&& 0xfffffffc)
        (step_boundary c2 (op_swl E s))).1 =
      swl_merge (effective_address s &&& 3)
        (read_data E bus_width_t.BUS_WIDTH_WORD (effective_address s &&& 0xfffffffc) s).1
        (get_rt s) % 2 ^ 32 := by
  rw [op_swl_eq]
  exact hE _ _ _

theorem lwr_reads_swr (E : collaborators β) (s : core β) (c2 : Nat) (hE : word_memory E) :
    (read_data E bus_width_t.BUS_WIDTH_WORD (effective_address s &&& 0xfffffffc)
        (step_boundary c2 (op_swr E s))).1 =
      swr_merge (effective_address s &&& 3)
        (read_data E bus_width_t.BUS_WIDTH_WORD (effective_address s &&& 0xfffffffc) s).1
        (get_rt s) % 2 ^ 32 := by
  rw [op_swr_eq]
  exact hE _ _ _

theorem lwl_after_swl_state (E : collaborators β) (s : core β) (c2 : Nat) (hE : word_memory E)
    (hl : s.is_load = false) (hd : s.is_load_delay_slot = false)
    (hrs : decode_rs (step_boundary c2 s) = decode_rs s)
    (him : decode_iconst (step_boundary c2 s) = decode_iconst s) :
    op_lwl E (step_boundary c2 (op_swl E s)) =
      set_rt_load
        ((get_rt s &&& not32 (2 ^ (24 - 8 * (effective_address s &&& 3)) - 1)) |||
          (s.regs.gp (decode_rt (step_boundary c2 s)) &&&
            (2 ^ (24 - 8 * (effective_address s &&& 3)) - 1)))
        (read_data E bus_width_t.BUS_WIDTH_WORD (effective_address s &&& 0xfffffffc)
          (step_boundary c2 (op_swl E s))).2 := by
  rw [op_lwl_eq, effective_address_after_store s (op_swl E s) c2 rfl hl hd hrs him,
    lwl_reads_swl E s c2 hE, lwl_after_swl _ _ _ _ (and_three_le _)]
  rfl

theorem lwr_after_swr_state (E : collaborators β) (s : core β) (c2 : Nat) (hE : word_memory E)
    (hl : s.is_load = false) (hd : s.is_load_delay_slot = false)
    (hrs : decode_rs (step_boundary c2 s) = decode_rs s)
    (him : decode_iconst (step_boundary c2 s) = decode_iconst s) :
    op_lwr E (step_boundary c2 (op_swr E s)) =
      set_rt_load
        ((get_rt s &&& (0xffffffff >>> (8 * (effective_address s &&& 3)))) |||
          (s.regs.gp (decode_rt (step_boundary c2 s)) &&&
            not32 (0xffffffff >>> (8 * (effective_address s &&& 3)))))
        (read_data E bus_width_t.BUS_WIDTH_WORD (effective_address s &&& 0xfffffffc)
          (step_boundary c2 (op_swr E s))).2 := by
  rw [op_lwr_eq, effective_address_after_store s (op_swr E s) c2 rfl hl hd hrs him,
    lwr_reads_swr E s c2 hE, lwr_after_swr]
  rfl

theorem swl_merge_lt (k m r : Nat) (hm : m < 2 ^ 32) (hr : r < 2 ^ 32) :
    swl_merge k m r < 2 ^ 32 := by
  unfold swl_merge
  apply Nat.or_lt_two_pow
  · exact lt_of_le_of_lt Nat.and_le_left hm
  · rw [Nat.shiftRight_eq_div_pow]
    exact lt_of_le_of_lt (Nat.div_le_self _ _) hr

theorem swr_merge_lt (k m r : Nat) (hm : m < 2 ^ 32) : swr_merge k m r < 2 ^ 32 := by
  unfold swr_merge
  apply Nat.or_lt_two_pow
  · exact lt_of_le_of_lt Nat.and_le_left hm
  · exact Nat.mod_lt _ (by decide)

theorem swl_low_bits (n m r : Nat) (hn : n ≤ 32) (hr : r < 2 ^ 32) :
    ((m &&& not32 (2 ^ (32 - n) - 1)) ||| (r >>> n)) &&& (2 ^ (32 - n) - 1) = r >>> n := by
  apply Nat.eq_of_testBit_eq
  intro i
  simp only [Nat.testBit_or, Nat.testBit_and, Nat.testBit_shiftRight, not32_testBit,
    Nat.testBit_two_pow_sub_one]
  by_cases h1 : i < 32 - n
  · simp [h1]
  · have e : r.testBit (n + i) = false := testBit_of_lt_32 r _ hr (by omega)
    simp [h1, e]

theorem swl_takes_top_of_r (k m r : Nat) (hk : k ≤ 3) (hr : r < 2 ^ 32) :
    swl_merge k m r &&& (2 ^ (8 * (k + 1)) - 1) = r >>> (24 - 8 * k) := by
  unfold swl_merge
  have e : 8 * (k + 1) = 32 - (24 - 8 * k) := by omega
  rw [e]
  exact swl_low_bits (24 - 8 * k) m r (by omega) hr

theorem swr_takes_low_of_r (k m r : Nat) (hm : m < 2 ^ 32) :
    swr_merge k m r >>> (8 * k) = r &&& (0xffffffff >>> (8 * k)) := by
  have h := swr_lwr_bits (8 * k) m r
  have e : swr_merge k m r % 2 ^ 32 = swr_merge k m r :=
    Nat.mod_eq_of_lt (swr_merge_lt k m r hm)
  unfold swr_merge at e ⊢
  rw [e] at h
  exact h

theorem read_after_swl (E : collaborators β) (s : core β) (hE : word_memory E) :
    (read_data E bus_width_t.BUS_WIDTH_WORD (effective_address s &&& 0xfffffffc)
        (op_swl E s)).1 =
      swl_merge (effective_address s &&& 3)
        (read_data E bus_width_t.BUS_WIDTH_WORD (effective_address s &&& 0xfffffffc) s).1
        (get_rt s) % 2 ^ 32 := by
  rw [op_swl_eq]
  exact hE _ _ _

theorem read_after_swr (E : collaborators β) (s : core β) (hE : word_memory E) :
    (read_data E bus_width_t.BUS_WIDTH_WORD (effective_address s &&& 0xfffffffc)
        (op_swr E s)).1 =
      swr_merge (effective_address s &&& 3)
        (read_data E bus_width_t.BUS_WIDTH_WORD (effective_address s &&& 0xfffffffc) s).1
        (get_rt s) % 2 ^ 32 := by
  rw [op_swr_eq]
  exact hE _ _ _

/-- C20: round trip on a bus that is a memory, with no load pending.  Let
`k = a & 3`, `r` the value of the stored register, `m` the memory word at
`a & ~3` before the store and `p` the content of the destination register of
the load.  `op_swl` at `a` followed, in the next instruction, by `op_lwl` at the
same `a` loads `(r & ~(2^(24 - 8k) - 1)) | (p & (2^(24 - 8k) - 1))`; the memory
word at `a & ~3` after `op_swl` is the merge of `m` and `r`, it agrees with `m`
above its low `k + 1` bytes, and its low `k + 1` bytes are the top `k + 1` bytes
of `r`.  `op_swr` followed by `op_lwr` loads
`(r & (0xffffffff >> 8k)) | (p & ~(0xffffffff >> 8k))`; the memory word after
`op_swr` agrees with `m` in its low `k` bytes, and above them it holds the low
`4 - k` bytes of `r`. -/
theorem unaligned_store_load_round_trip (E : collaborators β) (s : core β) (c2 : Nat)
    (hE : word_memory E) (hl : s.is_load = false) (hd : s.is_load_delay_slot = false)
    (hrs : decode_rs (step_boundary c2 s) = decode_rs s)
    (him : decode_iconst (step_boundary c2 s) = decode_iconst s)
    (hr : s.regs.gp (decode_rt s) < 2 ^ 32) :
    get_rt s = s.regs.gp (decode_rt s) ∧
      (op_lwl E (step_boundary c2 (op_swl E s)) =
          set_rt_load
            ((s.regs.gp (decode_rt s) &&&
                not32 (2 ^ (24 - 8 * (effective_address s &&& 3)) - 1)) |||
              (s.regs.gp (decode_rt (step_boundary c2 s)) &&&
                (2 ^ (24 - 8 * (effective_address s &&& 3)) - 1)))
            (read_data E bus_width_t.BUS_WIDTH_WORD (effective_address s &&& 0xfffffffc)
              (step_boundary c2 (op_swl E s))).2 ∧
        (decode_rt (step_boundary c2 s) ≠ 0 →
          (op_lwl E (step_boundary c2 (op_swl E s))).regs.gp (decode_rt (step_boundary c2 s)) =
            (s.regs.gp (decode_rt s) &&&
                not32 (2 ^ (24 - 8 * (effective_address s &&& 3)) - 1)) |||
              (s.regs.gp (decode_rt (step_boundary c2 s)) &&&
                (2 ^ (24 - 8 * (effective_address s &&& 3)) - 1))) ∧
        ((read_data E bus_width_t.BUS_WIDTH_WORD (effective_address s &&& 0xfffffffc)
              (op_swl E s)).1 =
            swl_merge (effective_address s &&& 3)
              (read_data E bus_width_t.BUS_WIDTH_WORD (effective_address s &&& 0xfffffffc) s).1
              (s.regs.gp (decode_rt s)) ∧
          (read_data E bus_width_t.BUS_WIDTH_WORD (effective_address s &&& 0xfffffffc)
              (op_swl E s)).1 >>> (8 * ((effective_address s &&& 3) + 1)) =
            (read_data E bus_width_t.BUS_WIDTH_WORD (effective_address s &&& 0xfffffffc) s).1 >>>
              (8 * ((effective_address s &&& 3) + 1)) ∧
          (read_data E bus_width_t.BUS_WIDTH_WORD (effective_address s &&& 0xfffffffc)
              (op_swl E s)).1 &&& (2 ^ (8 * ((effective_address s &&& 3) + 1)) - 1) =
            s.regs.gp (decode_rt s) >>> (24 - 8 * (effective_address s &&& 3)))) ∧
      (op_lwr E (step_boundary c2 (op_swr E s)) =
          set_rt_load
            ((s.regs.gp (decode_rt s) &&& (0xffffffff >>> (8 * (effective_address s &&& 3)))) |||
              (s.regs.gp (decode_rt (step_boundary c2 s)) &&&
                not32 (0xffffffff >>> (8 * (effective_address s &&& 3)))))
            (read_data E bus_width_t.BUS_WIDTH_WORD (effective_address s &&& 0xfffffffc)
              (step_boundary c2 (op_swr E s))).2 ∧
        (decode_rt (step_boundary c2 s) ≠ 0 →
          (op_lwr E (step_boundary c2 (op_swr E s))).regs.gp (decode_rt (step_boundary c2 s)) =
            (s.regs.gp (decode_rt s) &&& (0xffffffff >>> (8 * (effective_address s &&& 3)))) |||
              (s.regs.gp (decode_rt (step_boundary c2 s)) &&&
                not32 (0xffffffff >>> (8 * (effective_address s &&& 3))))) ∧
        ((read_data E bus_width_t.BUS_WIDTH_WORD (effective_address s &&& 0xfffffffc)
              (op_swr E s)).1 =
            swr_merge (effective_address s &&& 3)
              (read_data E bus_width_t.BUS_WIDTH_WORD (effective_address s &&& 0xfffffffc) s).1
              (s.regs.gp (decode_rt s)) ∧
          (read_data E bus_width_t.BUS_WIDTH_WORD (effective_address s &&& 0xfffffffc)
              (op_swr E s)).1 &&& (2 ^ (8 * (effective_address s &&& 3)) - 1) =
            (read_data E bus_width_t.BUS_WIDTH_WORD (effective_address s &&& 0xfffffffc) s).1 &&&
              (2 ^ (8 * (effective_address s &&& 3)) - 1) ∧
          (read_data E bus_width_t.BUS_WIDTH_WORD (effective_address s &&& 0xfffffffc)
              (op_swr E s)).1 >>> (8 * (effective_address s &&& 3)) =
            s.regs.gp (decode_rt s) &&& (0xffffffff >>> (8 * (effective_address s &&& 3))))) := by
  have hrt : get_rt s = s.regs.gp (decode_rt s) := get_register_no_delay s _ hd
  have hA := lwl_after_swl_state E s c2 hE hl hd hrs him
  have hB := lwr_after_swr_state E s c2 hE hl hd hrs him
  have hm := read_data_lt E bus_width_t.BUS_WIDTH_WORD (effective_address s &&& 0xfffffffc) s
  have hL := read_after_swl E s hE
  have hR := read_after_swr E s hE
  rw [hrt] at hA hB hL hR
  rw [Nat.mod_eq_of_lt (swl_merge_lt _ _ _ hm hr)] at hL
  rw [Nat.mod_eq_of_lt (swr_merge_lt _ _ _ hm)] at hR
  refine ⟨hrt, ⟨hA, fun ht => ?_, hL, ?_, ?_⟩, ⟨hB, fun ht => ?_, hR, ?_, ?_⟩⟩
  · rw [hA]
    exact set_rt_load_gp _ (read_data E bus_width_t.BUS_WIDTH_WORD
      (effective_address s &&& 0xfffffffc) (step_boundary c2 (op_swl E s))).2 ht
  · rw [hL]
    exact swl_keeps_upper _ _ _ (and_three_le _) hm hr
  · rw [hL]
    exact swl_takes_top_of_r _ _ _ (and_three_le _) hr
  · rw [hB]
    exact set_rt_load_gp _ (read_data E bus_width_t.BUS_WIDTH_WORD
      (effective_address s &&& 0xfffffffc) (step_boundary c2 (op_swr E s))).2 ht
  · rw [hR]
    exact swr_keeps_lower _ _ _
  · rw [hR]
    exact swr_takes_low_of_r _ _ _ hm

theorem unaligned_store_load_round_trip_witness :
    word_memory memory_bus ∧ (memory_state 0x101 0xaabbccdd).is_load = false ∧
      (memory_state 0x101 0xaabbccdd).is_load_delay_slot = false ∧
      decode_rs (step_boundary 0x00210000 (memory_state 0x101 0xaabbccdd)) =
        decode_rs (memory_state 0x101 0xaabbccdd) ∧
      decode_iconst (step_boundary 0x00210000 (memory_state 0x101 0xaabbccdd)) =
        decode_iconst (memory_state 0x101 0xaabbccdd) ∧
      (memory_state 0x101 0xaabbccdd).regs.gp (decode_rt (memory_state 0x101 0xaabbccdd)) <
        2 ^ 32 ∧
      decode_rt (step_boundary 0x00210000 (memory_state 0x101 0xaabbccdd)) ≠ 0 ∧
      (op_lwl memory_bus (step_boundary 0x00210000
          (op_swl memory_bus (memory_state 0x101 0xaabbccdd)))).regs.gp
        (decode_rt (step_boundary 0x00210000 (memory_state 0x101 0xaabbccdd))) = 0xaabb0101 ∧
      (op_lwr memory_bus (step_boundary 0x00210000
          (op_swr memory_bus (memory_state 0x101 0xaabbccdd)))).regs.gp
        (decode_rt (step_boundary 0x00210000 (memory_state 0x101 0xaabbccdd))) = 0x00bbccdd ∧
      (read_data memory_bus bus_width_t.BUS_WIDTH_WORD
          (effective_address (memory_state 0x101 0xaabbccdd) &&& 0xfffffffc)
          (op_swl memory_bus (memory_state 0x101 0xaabbccdd))).1 = 0x1122aabb ∧
      (read_data memory_bus bus_width_t.BUS_WIDTH_WORD
          (effective_address (memory_state 0x101 0xaabbccdd) &&& 0xfffffffc)
          (op_swr memory_bus (memory_state 0x101 0xaabbccdd))).1 = 0xbbccdd44 :=
  ⟨memory_bus_word_memory, rfl, rfl, by decide, by decide, by decide, by decide,
    ((unaligned_store_load_round_trip memory_bus (memory_state 0x101 0xaabbccdd) 0x00210000
      memory_bus_word_memory rfl rfl (by decide) (by decide) (by decide)).2.1.2.1
      (by decide)).trans (by decide),
    ((unaligned_store_load_round_trip memory_bus (memory_state 0x101 0xaabbccdd) 0x00210000
      memory_bus_word_memory rfl rfl (by decide) (by decide) (by decide)).2.2.2.1
      (by decide)).trans (by decide),
    (unaligned_store_load_round_trip memory_bus (memory_state 0x101 0xaabbccdd) 0x00210000
      memory_bus_word_memory rfl rfl (by decide) (by decide) (by decide)).2.1.2.2.1.trans
      (by decide),
    (unaligned_store_load_round_trip memory_bus (memory_state 0x101 0xaabbccdd) 0x00210000
      memory_bus_word_memory rfl rfl (by decide) (by decide) (by decide)).2.2.2.2.1.trans
      (by decide)⟩

/-! ## Shifts -/

end Psxact
